import Mathlib

/-!
Shallow embedding of the in-process relational data engine of the
`test_server` repository (Rust crate `db`, files `src/db/src/json.rs`,
`src/db/src/lib.rs`, `src/db/src/models.rs`).

Modelling conventions:
* `u32` / `u64` values are `Nat`; identifier counters never reach `2^32`
  in any state the claims exercise, so wrap-around is not modelled for
  them.  `usize` subtraction in `_search`, where underflow *does*
  matter, is modelled with an explicit `% 2^64` (release-mode wrapping
  semantics).
* Every Rust `HashMap<K, V>` table is an association list whose keys
  are unique in reachable states; iteration order of `values()` (which
  is unspecified in Rust) is the list order.  `HashMap::remove` /
  `get_mut` are modelled as `List.filter` / `List.map` over the key,
  which agree with the Rust semantics when keys are unique.
* The per-user modification log `HashMap<u32, Vec<Modification>>` is
  modelled as a total function `Nat → List Modification`; both
  `entry(..).or_insert(Vec::new())` and `get(..).unwrap_or(Vec::new())`
  treat a missing key as the empty vector, so the two representations
  are observably identical.
* Code paths that `panic!`/`expect` are modelled with `Option` —
  `none` is a panic.
* The random token of `auth_login` and the `SystemTime::now()`
  timestamp of `_add_occupancy` are passed as explicit arguments.
-/

namespace Db

/-- `models.rs`: `Classroom`. -/
structure Classroom where
  id : Nat
  name : String
  capacity : Nat
deriving DecidableEq, Repr

/-- `models.rs`: `TeacherInformations` (rank collapsed to its tag name;
no claim inspects it). -/
structure TeacherInformations where
  phone_number : Option String
  email : Option String
  rank : String
deriving DecidableEq, Repr

/-- `models.rs`: `StudentInformations`. -/
structure StudentInformations where
  class_id : Nat
deriving DecidableEq, Repr

/-- `models.rs`: `UserKind`. -/
inductive UserKind where
  | Administrator : UserKind
  | Teacher : TeacherInformations → UserKind
  | Student : StudentInformations → UserKind
deriving DecidableEq, Repr

/-- `models.rs`: `User`. -/
structure User where
  id : Nat
  first_name : String
  last_name : String
  username : String
  password : String
  kind : UserKind
deriving DecidableEq, Repr

/-- `models.rs`: `User::full_name`. -/
def User.full_name (u : User) : String :=
  u.first_name ++ " " ++ u.last_name

/-- `models.rs`: `ClassLevel`. -/
inductive ClassLevel where
  | L1 | L2 | L3 | M1 | M2
deriving DecidableEq, Repr

/-- `models.rs`: `Class`. -/
structure Class where
  id : Nat
  name : String
  level : ClassLevel
deriving DecidableEq, Repr

/-- `models.rs`: `Subject`. -/
structure Subject where
  id : Nat
  class_id : Nat
  name : String
  group_count : Nat
deriving DecidableEq, Repr

/-- `models.rs`: `SubjectTeacher`. -/
structure SubjectTeacher where
  id : Nat
  teacher_id : Nat
  subject_id : Nat
  in_charge : Bool
deriving DecidableEq, Repr

/-- `models.rs`: `StudentSubject`. -/
structure StudentSubject where
  id : Nat
  subject_id : Nat
  student_id : Nat
  group_number : Nat
deriving DecidableEq, Repr

/-- `models.rs`: `OccupancyType`. -/
inductive OccupancyType where
  | CM | TD | TP | Projet | Administration | External
deriving DecidableEq, Repr

/-- `models.rs`: `Occupancy`. -/
structure Occupancy where
  id : Nat
  classroom_id : Option Nat
  group_number : Option Nat
  subject_id : Option Nat
  teacher_id : Nat
  start_datetime : Nat
  end_datetime : Nat
  occupancy_type : OccupancyType
  name : String
deriving DecidableEq, Repr

/-- `models.rs`: `ModificationType`. -/
inductive ModificationType where
  | Create | Edit | Delete
deriving DecidableEq, Repr

/-- `models.rs`: `ModificationOccupancy`. -/
structure ModificationOccupancy where
  subject_id : Option Nat
  class_id : Option Nat
  occupancy_type : OccupancyType
  occupancy_start : Nat
  occupancy_end : Nat
  previous_occupancy_start : Nat
  previous_occupancy_end : Nat
deriving DecidableEq, Repr

/-- `models.rs`: `Modification`. -/
structure Modification where
  modification_type : ModificationType
  modification_timestamp : Nat
  occupancy : ModificationOccupancy
deriving DecidableEq, Repr

/-- `lib.rs`: `NewOccupancy`. -/
structure NewOccupancy where
  classroom_id : Option Nat
  group_number : Option Nat
  subject_id : Option Nat
  teacher_id : Nat
  start_datetime : Nat
  end_datetime : Nat
  occupancy_type : OccupancyType
  name : String
deriving DecidableEq, Repr

/-- `lib.rs`: `NewUser`. -/
structure NewUser where
  first_name : String
  last_name : String
  password : String
  kind : UserKind
deriving DecidableEq, Repr

/-- `lib.rs`: `NewClassroom`. -/
structure NewClassroom where
  name : String
  capacity : Nat
deriving DecidableEq, Repr

/-- `lib.rs`: `NewClass`. -/
structure NewClass where
  name : String
  level : ClassLevel
deriving DecidableEq, Repr

/-- `lib.rs`: `NewSubject`. -/
structure NewSubject where
  class_id : Nat
  name : String
  teacher_in_charge_id : Nat
deriving DecidableEq, Repr

/-- `lib.rs`: `SubjectUpdate`. -/
structure SubjectUpdate where
  class_id : Option Nat
  name : Option String
  teacher_in_charge_id : Option Nat
deriving DecidableEq, Repr

/-- `lib.rs`: `UpdateStatus`. -/
structure UpdateStatus where
  found : Bool
  updated : Bool
deriving DecidableEq, Repr

/-- `json.rs`: the state of `JSONDatabase` (the `filename` field, used
only by disk I/O, is omitted; `delay` is in milliseconds). -/
structure JSONDatabase where
  dirty : Bool
  delay : Nat
  users : List User
  tokens : List (String × String)
  classrooms : List Classroom
  classes : List Class
  subjects : List Subject
  subjects_teachers : List SubjectTeacher
  subjects_students : List StudentSubject
  occupancies : List Occupancy
  modifications : Nat → List Modification
  next_user_id : Nat
  next_classroom_id : Nat
  next_class_id : Nat
  next_subject_id : Nat
  next_subject_teacher_id : Nat
  next_subject_students_id : Nat
  next_occupancy_id : Nat

/-- `lib.rs`: `PAGE_SIZE`. -/
def PAGE_SIZE : Nat := 10

/-- The modulus of `usize` arithmetic on the 64-bit targets the server
is built for. -/
def USIZE_MOD : Nat := 2 ^ 64

/-- `json.rs`: `subject_get` (`self.subjects.get(&id)`; the map key of a
subject is its `id` field). -/
def subject_get (db : JSONDatabase) (id : Nat) : Option Subject :=
  db.subjects.find? (fun s => s.id == id)

/-- `json.rs`: `classroom_get`. -/
def classroom_get (db : JSONDatabase) (id : Nat) : Option Classroom :=
  db.classrooms.find? (fun c => c.id == id)

/-- `json.rs`: `user_get` (`self.users.get(username)`; the map key of a
user is its `username` field). -/
def user_get (db : JSONDatabase) (username : String) : Option User :=
  db.users.find? (fun u => u.username == username)

/-- `json.rs`: `user_get_by_id` (`self.users.values().find(|u| u.id == id)`). -/
def user_get_by_id (db : JSONDatabase) (id : Nat) : Option User :=
  db.users.find? (fun u => u.id == id)

/-- `lib.rs`: `user_get_student_by_id`. -/
def user_get_student_by_id (db : JSONDatabase) (id : Nat) : Option User :=
  (user_get_by_id db id).bind (fun u =>
    match u.kind with
    | UserKind.Student _ => some u
    | _ => none)

/-- `json.rs`: `auth_login`'s insertion into the `bimap::BiMap`:
`BiMap::insert` first removes any existing pair sharing the left value
or the right value, then inserts the new pair. -/
def bimap_insert (m : List (String × String)) (l r : String) : List (String × String) :=
  (m.filter (fun p => p.1 != l && p.2 != r)) ++ [(l, r)]

/-- `json.rs`: `auth_login`.  The 25-character random token is an
explicit argument (`rng` is modelled as an input).  `none` is the
`None` of the Rust function (unknown user or wrong password). -/
def auth_login (db : JSONDatabase) (username password token : String) :
    Option (JSONDatabase × User) :=
  match user_get db username with
  | none => none
  | some u =>
    if password != u.password then none
    else
      some ({ db with tokens := bimap_insert db.tokens token username, dirty := true }, u)

/-- `json.rs`: `auth_logout` (`remove_by_left`, then `set_dirty`
unconditionally). -/
def auth_logout (db : JSONDatabase) (token : String) : JSONDatabase × Bool :=
  let removed := db.tokens.any (fun p => p.1 == token)
  ({ db with tokens := db.tokens.filter (fun p => p.1 != token), dirty := true }, removed)

/-- `json.rs`: `auth_get_user` (`get_by_left` on the token bimap, then a
user lookup by username). -/
def auth_get_user (db : JSONDatabase) (token : String) : Option User :=
  (db.tokens.find? (fun p => p.1 == token)).bind (fun p => user_get db p.2)

/-- `json.rs`: `classroom_free`. -/
def classroom_free (db : JSONDatabase) (classroom_id from_dt to_dt : Nat) : Bool :=
  !(db.occupancies.any (fun o =>
    o.classroom_id == some classroom_id
      && decide (from_dt ≤ o.start_datetime) && decide (o.end_datetime ≤ to_dt)))

/-- `json.rs`: `teacher_free`. -/
def teacher_free (db : JSONDatabase) (teacher_id from_dt to_dt : Nat) : Bool :=
  !(db.occupancies.any (fun o =>
    o.teacher_id == teacher_id
      && decide (from_dt ≤ o.start_datetime) && decide (o.end_datetime ≤ to_dt)))

/-- The `match` both `class_free` and `group_free` perform on the
occupancy's resolved subject (`None => return false`). -/
def subject_case (x : Option Subject) (p : Subject → Bool) : Bool :=
  match x with
  | none => false
  | some subject => p subject

/-- `json.rs`: `class_free` (`o.subject_id.and_then(|sid| self.subject_get(sid))`,
occupancies without a resolvable subject are skipped). -/
def class_free (db : JSONDatabase) (class_id from_dt to_dt : Nat) : Bool :=
  !(db.occupancies.any (fun o =>
    subject_case (o.subject_id.bind (subject_get db)) (fun subject =>
      subject.class_id == class_id
        && decide (from_dt ≤ o.start_datetime) && decide (o.end_datetime ≤ to_dt))))

/-- `json.rs`: `group_free`. -/
def group_free (db : JSONDatabase) (class_id subject_id group_number from_dt to_dt : Nat) : Bool :=
  !(db.occupancies.any (fun o =>
    subject_case (o.subject_id.bind (subject_get db)) (fun subject =>
      subject.id == subject_id
        && subject.class_id == class_id
        && decide (from_dt ≤ o.start_datetime) && decide (o.end_datetime ≤ to_dt)
        && o.group_number == some group_number)))

/-- `json.rs`: the second early return of the filter closure of
`occupancies_list` (`if let Some(to) = to { if o.end_datetime > to
{ return false; } }`). -/
def occupancy_to_check (to_dt : Option Nat) (o : Occupancy) : Bool :=
  match to_dt with
  | some t => if t < o.end_datetime then false else true
  | none => true

/-- `json.rs`: the filter closure of `occupancies_list` (first early
return on `from`, then the `to` check). -/
def occupancy_window_check (from_dt to_dt : Option Nat) (o : Occupancy) : Bool :=
  match from_dt with
  | some f => if o.start_datetime < f then false else occupancy_to_check to_dt o
  | none => occupancy_to_check to_dt o

/-- `json.rs`: `occupancies_list`. -/
def occupancies_list (db : JSONDatabase) (from_dt to_dt : Option Nat) : List Occupancy :=
  db.occupancies.filter (occupancy_window_check from_dt to_dt)

/-- `json.rs`: `classroom_remove` (existence of every id is checked
before any removal). -/
def classroom_remove (db : JSONDatabase) (classrooms : List Nat) : JSONDatabase × Bool :=
  if !(classrooms.all (fun id => db.classrooms.any (fun c => c.id == id))) then
    (db, false)
  else
    ({ db with classrooms := db.classrooms.filter (fun c => !(classrooms.contains c.id)),
               dirty := true }, true)

/-- `json.rs`: `class_remove`. -/
def class_remove (db : JSONDatabase) (classes : List Nat) : JSONDatabase × Bool :=
  if !(classes.all (fun id => db.classes.any (fun c => c.id == id))) then
    (db, false)
  else
    ({ db with classes := db.classes.filter (fun c => !(classes.contains c.id)),
               dirty := true }, true)

/-- `json.rs`: `subject_remove` (subject-teacher rows are deliberately
left behind, see the `TODO` in the source). -/
def subject_remove (db : JSONDatabase) (subjects : List Nat) : JSONDatabase × Bool :=
  if !(subjects.all (fun id => db.subjects.any (fun s => s.id == id))) then
    (db, false)
  else
    ({ db with subjects := db.subjects.filter (fun s => !(subjects.contains s.id)),
               dirty := true }, true)

/-- `json.rs`: `occupancies_remove`. -/
def occupancies_remove (db : JSONDatabase) (occupancies : List Nat) : JSONDatabase × Bool :=
  if !(occupancies.all (fun id => db.occupancies.any (fun o => o.id == id))) then
    (db, false)
  else
    ({ db with occupancies := db.occupancies.filter (fun o => !(occupancies.contains o.id)),
               dirty := true }, true)

/-- `json.rs`: `user_remove` (validates all ids, then purges the tokens
of every removed username by `remove_by_right`, then retains the other
users). -/
def user_remove (db : JSONDatabase) (users : List Nat) : JSONDatabase × Bool :=
  let all_users_ids := db.users.map (fun u => u.id)
  if !(users.all (fun id => all_users_ids.contains id)) then
    (db, false)
  else
    let removed_usernames :=
      (db.users.filter (fun u => users.contains u.id)).map (fun u => u.username)
    let tokens :=
      removed_usernames.foldl (fun tks uname => tks.filter (fun p => p.2 != uname)) db.tokens
    ({ db with tokens := tokens,
               users := db.users.filter (fun u => !(users.contains u.id)),
               dirty := true }, true)

/-- `json.rs`: `last_occupancies_modifications` (`get(&user_id)` with
`unwrap_or(Vec::new())`). -/
def last_occupancies_modifications (db : JSONDatabase) (user_id : Nat) : List Modification :=
  db.modifications user_id

/-- `lib.rs`: the loop body of `group_numbers`, recursing on
`remaining`.  `groups[index] += 1` is `List.set`; the Rust index is
always in bounds when `group_count ≥ 1`. -/
def group_numbers_go (group_count : Nat) : Nat → Nat → List Nat → List Nat
  | 0, _, gs => gs
  | remaining + 1, index, gs =>
    let gs' := gs.set index (gs.getD index 0 + 1)
    let index' := index + 1
    let index' := if index' = group_count then 0 else index'
    group_numbers_go group_count remaining index' gs'

/-- `lib.rs`: `group_numbers` — per-group sizes, filled round-robin
starting at group 0. -/
def group_numbers (student_count : Nat) (group_count : Nat) : List Nat :=
  group_numbers_go group_count student_count 0 (List.replicate group_count 0)

/-- `lib.rs`: `groups` — for each `(index, size)` of
`group_numbers(..).enumerate()`, push `index` `size` times. -/
def groups (student_count : Nat) (group_count : Nat) : List Nat :=
  ((group_numbers student_count group_count).enum.map
    (fun p => List.replicate p.2 p.1)).flatten

/-- `json.rs`: `truncate` (keep the first `max_chars` characters). -/
def truncate_chars (s : String) (max_chars : Nat) : String :=
  (s.toList.take max_chars).asString

/-- Does `needle` start `haystack`? (helper for substring search). -/
def chars_start : List Char → List Char → Bool
  | [], _ => true
  | _ :: _, [] => false
  | a :: as, b :: bs => a == b && chars_start as bs

/-- Rust `str::contains(&str)`: does `needle` occur contiguously inside
`haystack`? -/
def chars_contain (haystack needle : List Char) : Bool :=
  match haystack with
  | [] => needle.isEmpty
  | _ :: rest => chars_start needle haystack || chars_contain rest needle

/-- `json.rs`: the `normalize` closure of `contains_query`
(`unidecode::unidecode(s.trim()).to_ascii_lowercase()`).  `unidecode`
is an external crate; the theorems take its transliteration function as
the parameter `translit` (its output is ASCII, on which
`to_ascii_lowercase` and `String.toLower` agree). -/
def normalize_str (translit : String → String) (s : String) : String :=
  (translit s.trim).toLower

/-- `json.rs`: `contains_query` — `None` query matches everything,
otherwise normalized-substring containment of the (truncated,
normalized) query in the normalized projected field. -/
def contains_query (translit : String → String) {T : Type} (query : Option String)
    (property : T → String) : T → Bool :=
  let query := (query.map (fun d => truncate_chars d 50)).map (normalize_str translit)
  fun object =>
    match query with
    | some q => chars_contain ((normalize_str translit (property object)).toList) q.toList
    | none => true

/-- `json.rs`: the `for row in collection` loop of `_search`:
`total` counts every match; the first `to_skip` matches are skipped;
then up to `PAGE_SIZE` matches are collected. -/
def search_go {T : Type} (pred : T → Bool) (to_skip : Nat) :
    List T → Nat → Nat → List T → Nat × List T
  | [], total, _, results => (total, results)
  | row :: rest, total, skipped, results =>
    if !(pred row) then search_go pred to_skip rest total skipped results
    else if skipped < to_skip then search_go pred to_skip rest (total + 1) (skipped + 1) results
    else if results.length < PAGE_SIZE then
      search_go pred to_skip rest (total + 1) skipped (results ++ [row])
    else search_go pred to_skip rest (total + 1) skipped results

/-- `json.rs`: `_search`.  `to_skip = (page - 1) * PAGE_SIZE` is `usize`
arithmetic: the subtraction and multiplication wrap modulo `2^64`
(release build; a debug build panics on `page = 0`). -/
def _search {T : Type} (translit : String → String) (collection : List T)
    (property : T → String) (page : Option Nat) (query : Option String)
    (custom_filter : T → Bool) : Nat × List T :=
  let filter := contains_query translit query property
  match page with
  | none =>
    let vec := collection.filter (fun row => filter row && custom_filter row)
    (vec.length, vec)
  | some page =>
    let to_skip := (page + USIZE_MOD - 1) % USIZE_MOD * PAGE_SIZE % USIZE_MOD
    search_go (fun row => filter row && custom_filter row) to_skip collection 0 0 []

/-- `json.rs`: `classroom_list`. -/
def classroom_list (translit : String → String) (db : JSONDatabase) (page : Nat)
    (query : Option String) : Nat × List Classroom :=
  _search translit db.classrooms (fun c => c.name) (some page) query (fun _ => true)

/-- `json.rs`: `class_list`. -/
def class_list (translit : String → String) (db : JSONDatabase) (page : Nat)
    (query : Option String) : Nat × List Class :=
  _search translit db.classes (fun c => c.name) (some page) query (fun _ => true)

/-- `json.rs`: `user_list`. -/
def user_list (translit : String → String) (db : JSONDatabase) (page : Option Nat)
    (query : Option String) (filter : User → Bool) : Nat × List User :=
  _search translit db.users (fun u => u.full_name) page query filter

/-- `json.rs`: `subject_list`. -/
def subject_list (translit : String → String) (db : JSONDatabase) (page : Nat)
    (query : Option String) (filter : Subject → Bool) : Nat × List Subject :=
  _search translit db.subjects (fun s => s.name) (some page) query filter

/-- `json.rs`: `_subject_add` — inserts the subject with `group_count = 1`
plus one `in_charge = true` subject-teacher row, and bumps both
counters. -/
def _subject_add (db : JSONDatabase) (new_subject : NewSubject) : JSONDatabase :=
  let subject : Subject :=
    { id := db.next_subject_id, class_id := new_subject.class_id,
      name := new_subject.name, group_count := 1 }
  let subject_teacher : SubjectTeacher :=
    { id := db.next_subject_teacher_id, teacher_id := new_subject.teacher_in_charge_id,
      subject_id := subject.id, in_charge := true }
  { db with subjects := db.subjects ++ [subject],
            subjects_teachers := db.subjects_teachers ++ [subject_teacher],
            next_subject_id := db.next_subject_id + 1,
            next_subject_teacher_id := db.next_subject_teacher_id + 1 }

/-- `json.rs`: `subject_add` (`_subject_add` then `set_dirty`). -/
def subject_add (db : JSONDatabase) (new_subject : NewSubject) : JSONDatabase :=
  { _subject_add db new_subject with dirty := true }

/-- `json.rs`: `teacher_teaches`. -/
def teacher_teaches (db : JSONDatabase) (teacher_id subject_id : Nat) : Bool :=
  db.subjects_teachers.any (fun st =>
    st.teacher_id == teacher_id && st.subject_id == subject_id)

/-- `json.rs`: `teacher_in_charge`. -/
def teacher_in_charge (db : JSONDatabase) (teacher_id subject_id : Nat) : Bool :=
  db.subjects_teachers.any (fun st =>
    st.teacher_id == teacher_id && st.subject_id == subject_id && st.in_charge)

/-- `json.rs`: the `values_mut().find(..)` write of `_set_teaches`: set
`in_charge` on the first row matching `(subject_id, teacher_id)`. -/
def set_in_charge_first : List SubjectTeacher → Nat → Nat → Bool → List SubjectTeacher
  | [], _, _, _ => []
  | st :: rest, sid, tid, b =>
    if st.subject_id == sid && st.teacher_id == tid then { st with in_charge := b } :: rest
    else st :: set_in_charge_first rest sid tid b

/-- `json.rs`: `_set_teaches` — overwrite `in_charge` on an existing
row when asked, otherwise insert a fresh row whose flag defaults to
`false`. -/
def _set_teaches (db : JSONDatabase) (subject_id teacher_id : Nat)
    (in_charge : Option Bool) : JSONDatabase :=
  if db.subjects_teachers.any (fun v => v.subject_id == subject_id && v.teacher_id == teacher_id) then
    match in_charge with
    | some b =>
      { db with subjects_teachers := set_in_charge_first db.subjects_teachers subject_id teacher_id b }
    | none => db
  else
    let st : SubjectTeacher :=
      { id := db.next_subject_teacher_id, teacher_id := teacher_id,
        subject_id := subject_id, in_charge := in_charge.getD false }
    { db with subjects_teachers := db.subjects_teachers ++ [st],
              next_subject_teacher_id := db.next_subject_teacher_id + 1 }

/-- `json.rs`: `_unset_teaches` — remove the first row matching
`(subject_id, teacher_id)` (by its map key), reporting whether one
existed. -/
def _unset_teaches (db : JSONDatabase) (subject_id teacher_id : Nat) : JSONDatabase × Bool :=
  match db.subjects_teachers.find? (fun v => v.subject_id == subject_id && v.teacher_id == teacher_id) with
  | some _ =>
    ({ db with subjects_teachers :=
        db.subjects_teachers.eraseP (fun v => v.subject_id == subject_id && v.teacher_id == teacher_id) },
     true)
  | none => (db, false)

/-- `json.rs`: `teacher_set_teaches` (`_set_teaches` with `None`, then
`set_dirty`). -/
def teacher_set_teaches (db : JSONDatabase) (teacher_id subject_id : Nat) : JSONDatabase :=
  { _set_teaches db subject_id teacher_id none with dirty := true }

/-- `json.rs`: `teacher_unset_teaches` (`_unset_teaches`, then
`set_dirty`; the boolean is dropped). -/
def teacher_unset_teaches (db : JSONDatabase) (teacher_id subject_id : Nat) : JSONDatabase :=
  { (_unset_teaches db subject_id teacher_id).1 with dirty := true }

/-- Update the subject stored under key `id` (`subjects.get_mut(&id)`). -/
def update_subject (db : JSONDatabase) (id : Nat) (f : Subject → Subject) : JSONDatabase :=
  { db with subjects := db.subjects.map (fun s => if s.id == id then f s else s) }

/-- `json.rs`: the `class_id` and `name` writes of `subject_update`
(the `class_id` one first, as in the source). -/
def subject_update_fields (db : JSONDatabase) (id : Nat) (u : SubjectUpdate) : JSONDatabase :=
  match u.name with
  | some n =>
    update_subject (match u.class_id with
      | some cid => update_subject db id (fun s => { s with class_id := cid })
      | none => db) id (fun s => { s with name := n })
  | none =>
    match u.class_id with
    | some cid => update_subject db id (fun s => { s with class_id := cid })
    | none => db

/-- `json.rs`: `subject_update`.  `none` is the
`expect("a subject should always have a teacher in charge")` panic. -/
def subject_update (db : JSONDatabase) (id : Nat) (update : SubjectUpdate) :
    Option (JSONDatabase × UpdateStatus) :=
  if (subject_get db id).isNone then some (db, { found := false, updated := false })
  else
    match update.teacher_in_charge_id with
    | none =>
      some (if update.class_id.isSome || update.name.isSome then
              { subject_update_fields db id update with dirty := true }
            else subject_update_fields db id update,
            { found := true, updated := update.class_id.isSome || update.name.isSome })
    | some teacher_in_charge_id =>
      match (((subject_update_fields db id update).subjects_teachers.filter
                (fun st => st.subject_id == id)).find?
               (fun st => teacher_in_charge (subject_update_fields db id update)
                 st.teacher_id id)).map (fun st => st.teacher_id) with
      | none => none
      | some old_teacher_in_charge_id =>
        some ({ _set_teaches
                  (_set_teaches (subject_update_fields db id update) id
                    old_teacher_in_charge_id (some false))
                  id teacher_in_charge_id (some true) with dirty := true },
              { found := true, updated := true })

/-- `json.rs`: `subject_add_group` (`none` is the `expect("subject
shoulld exist")` panic). -/
def subject_add_group (db : JSONDatabase) (subject_id : Nat) : Option JSONDatabase :=
  match subject_get db subject_id with
  | none => none
  | some _ =>
    some { update_subject db subject_id (fun s => { s with group_count := s.group_count + 1 }) with
           dirty := true }

/-- `json.rs`: `subject_remove_group` — reject when `group_count < 2`,
otherwise decrement (no redistribution here). -/
def subject_remove_group (db : JSONDatabase) (subject_id : Nat) :
    Option (JSONDatabase × Bool) :=
  match subject_get db subject_id with
  | none => none
  | some subject =>
    if 2 ≤ subject.group_count then
      some ({ update_subject db subject_id (fun s => { s with group_count := s.group_count - 1 }) with
              dirty := true }, true)
    else
      some (db, false)

/-- `json.rs`: `_subject_add_student` — insert a `(subject, student)`
row with `group_number = 0` unless one already exists. -/
def _subject_add_student (db : JSONDatabase) (subject_id student_id : Nat) :
    JSONDatabase × Bool :=
  if db.subjects_students.any (fun ss =>
       ss.subject_id == subject_id && ss.student_id == student_id) then
    (db, false)
  else
    let row : StudentSubject :=
      { id := db.next_subject_students_id, subject_id := subject_id,
        student_id := student_id, group_number := 0 }
    ({ db with subjects_students := db.subjects_students ++ [row],
               next_subject_students_id := db.next_subject_students_id + 1 }, true)

/-- `json.rs`: `subject_add_student` (`set_dirty` only when a row was
inserted). -/
def subject_add_student (db : JSONDatabase) (subject_id student_id : Nat) : JSONDatabase :=
  let r := _subject_add_student db subject_id student_id
  if r.2 then { r.1 with dirty := true } else r.1

/-- `json.rs`: the collection loop of `subject_students`
(`for id in ids { users.push(self.user_get_by_id(id).expect(..)) }`;
`none` is the panic). -/
def collect_users (db : JSONDatabase) : List Nat → Option (List User)
  | [] => some []
  | id :: rest =>
    match user_get_by_id db id with
    | none => none
    | some u => (collect_users db rest).map (fun us => u :: us)

/-- `json.rs`: `subject_students` — the users enrolled in a subject, in
join-table order (`none` is the `expect("user should exist")` panic). -/
def subject_students (db : JSONDatabase) (subject_id : Nat) : Option (List User) :=
  collect_users db
    ((db.subjects_students.filter (fun ss => ss.subject_id == subject_id)).map
      (fun ss => ss.student_id))

/-- Rust `String` ordering (`Ord`): byte-wise lexicographic UTF-8
comparison, which coincides with lexicographic comparison of the
code-point sequences. -/
def chars_le : List Char → List Char → Bool
  | [], _ => true
  | _ :: _, [] => false
  | a :: as, b :: bs => if a = b then chars_le as bs else decide (a.toNat < b.toNat)

/-- `a <= b` on Rust strings. -/
def str_le (a b : String) : Bool := chars_le a.toList b.toList

/-- Rust `slice::sort_by_key` is a *stable* sort; a stable sort for a
given (total, decidable) key order is unique, so it is modelled by a
stable insertion sort: a later element is inserted after all equal
keys. -/
def insert_stable (le : User → User → Bool) (x : User) : List User → List User
  | [] => [x]
  | y :: ys => if le y x then y :: insert_stable le x ys else x :: y :: ys

/-- `students.sort_by_key(|s| s.full_name())` (stable). -/
def sort_stable (le : User → User → Bool) (l : List User) : List User :=
  l.foldl (fun acc x => insert_stable le x acc) []

/-- `json.rs`: the `values_mut().find(..)` write of
`_distribute_subject_groups`: set `group_number` on the first row
matching `(student_id, subject_id)`; `none` is the `expect("student
should participate in the subject")` panic. -/
def update_row : List StudentSubject → Nat → Nat → Nat → Option (List StudentSubject)
  | [], _, _, _ => none
  | ss :: rest, sid, stid, g =>
    if ss.student_id == stid && ss.subject_id == sid then
      some ({ ss with group_number := g } :: rest)
    else (update_row rest sid stid g).map (fun l => ss :: l)

/-- `json.rs`: the assignment loop of `_distribute_subject_groups`
(`for (student_id, group_number) in student_ids.iter().zip(groups.iter())`). -/
def assign_rows (rows : List StudentSubject) (sid : Nat) (zl : List (Nat × Nat)) :
    Option (List StudentSubject) :=
  zl.foldlM (fun rs p => update_row rs sid p.1 p.2) rows

/-- `json.rs`: `_distribute_subject_groups` — sort the enrolled
students by full name (Rust `sort_by_key` is a stable merge sort), then
write the `groups(n, group_count)` numbers back in that order. -/
def _distribute_subject_groups (db : JSONDatabase) (subject_id : Nat) :
    Option JSONDatabase :=
  match subject_get db subject_id with
  | none => none
  | some subject =>
    match subject_students db subject_id with
    | none => none
    | some students =>
      let sorted := sort_stable (fun a b => str_le a.full_name b.full_name) students
      let student_ids := sorted.map (fun s => s.id)
      let gs := groups student_ids.length subject.group_count
      match assign_rows db.subjects_students subject_id (student_ids.zip gs) with
      | none => none
      | some rows => some { db with subjects_students := rows }

/-- `json.rs`: `distribute_subject_groups` (`_distribute_subject_groups`
then `set_dirty`). -/
def distribute_subject_groups (db : JSONDatabase) (subject_id : Nat) :
    Option JSONDatabase :=
  (_distribute_subject_groups db subject_id).map (fun d => { d with dirty := true })

/-- `json.rs`: `student_group`. -/
def student_group (db : JSONDatabase) (student_id subject_id : Nat) : Option Nat :=
  (db.subjects_students.find? (fun ss =>
    ss.student_id == student_id && ss.subject_id == subject_id)).map
      (fun ss => ss.group_number)

/-- `json.rs`: `_add_modification` — push the record to the front of
every affected user's list, then truncate each list to 25. -/
def _add_modification (db : JSONDatabase) (affected_users : List Nat)
    (modification : Modification) : JSONDatabase :=
  let mods := affected_users.foldl
    (fun f uid => fun x => if x = uid then (modification :: f x).take 25 else f x)
    db.modifications
  { db with modifications := mods }

/-- `json.rs`: the `(group_number, student_id)` pairs collected by
`_add_occupancy` for a subject (`none` is the `expect("should be a
valid reference")` panic on a non-student enrollee). -/
def occ_subject_students (db : JSONDatabase) (subject_id : Nat) :
    Option (List (Nat × Nat)) :=
  (db.subjects_students.filter (fun ss => ss.subject_id == subject_id)).mapM
    (fun ss => (user_get_student_by_id db ss.student_id).map (fun u => (ss.group_number, u.id)))

/-- `json.rs`: the affected-user list of `_add_occupancy`: the teacher,
then the enrolled students (restricted to the occupancy's group when it
has one). -/
def occ_affected_users (db : JSONDatabase) (occupancy : NewOccupancy) :
    Option (List Nat) :=
  match occupancy.subject_id with
  | none => some [occupancy.teacher_id]
  | some sid =>
    (occ_subject_students db sid).map (fun ss =>
      match occupancy.group_number with
      | some gn =>
        occupancy.teacher_id :: (ss.filter (fun p => p.1 == gn)).map (fun p => p.2)
      | none => occupancy.teacher_id :: ss.map (fun p => p.2))

/-- `json.rs`: the `occupancy.subject_id.map(|id| self.subject_get(id)
.expect(..))` step of `_add_occupancy` (`none` is the panic). -/
def occ_subject_resolve (db : JSONDatabase) (subject_id : Option Nat) :
    Option (Option Subject) :=
  match subject_id with
  | none => some none
  | some sid => (subject_get db sid).map some

/-- `json.rs`: `_add_occupancy`.  `now` is the `SystemTime::now()`
epoch-seconds timestamp; `none` is any of the `expect` panics. -/
def _add_occupancy (db : JSONDatabase) (occupancy : NewOccupancy) (now : Nat) :
    Option JSONDatabase :=
  match occ_affected_users db occupancy with
  | none => none
  | some affected_users =>
  match occ_subject_resolve db occupancy.subject_id with
  | none => none
  | some subject =>
  let modification : Modification :=
    { modification_type := ModificationType.Create,
      modification_timestamp := now,
      occupancy :=
        { subject_id := occupancy.subject_id,
          class_id := subject.map (fun s => s.class_id),
          occupancy_type := occupancy.occupancy_type,
          occupancy_start := occupancy.start_datetime,
          occupancy_end := occupancy.end_datetime,
          previous_occupancy_start := occupancy.start_datetime,
          previous_occupancy_end := occupancy.end_datetime } }
  let db := _add_modification db affected_users modification
  let occ : Occupancy :=
    { id := db.next_occupancy_id, classroom_id := occupancy.classroom_id,
      group_number := occupancy.group_number, subject_id := occupancy.subject_id,
      teacher_id := occupancy.teacher_id, start_datetime := occupancy.start_datetime,
      end_datetime := occupancy.end_datetime, occupancy_type := occupancy.occupancy_type,
      name := occupancy.name }
  some { db with occupancies := db.occupancies ++ [occ],
                 next_occupancy_id := db.next_occupancy_id + 1 }

/-- `json.rs`: `occupancies_add` (`_add_occupancy` then `set_dirty`). -/
def occupancies_add (db : JSONDatabase) (occupancy : NewOccupancy) (now : Nat) :
    Option JSONDatabase :=
  (_add_occupancy db occupancy now).map (fun d => { d with dirty := true })

/-- A sequence of occupancy creations (`occupancies_add` repeatedly),
each paired with its `SystemTime::now()` timestamp. -/
def occupancies_add_all (db : JSONDatabase) (creations : List (NewOccupancy × Nat)) :
    Option JSONDatabase :=
  creations.foldlM (fun d p => occupancies_add d p.1 p.2) db

/-- The audit record `_add_occupancy` builds for a subject-less
occupancy creation (`class_id` is `None` because there is no subject to
resolve). -/
def creation_record (p : NewOccupancy × Nat) : Modification :=
  { modification_type := ModificationType.Create,
    modification_timestamp := p.2,
    occupancy :=
      { subject_id := none,
        class_id := none,
        occupancy_type := p.1.occupancy_type,
        occupancy_start := p.1.start_datetime,
        occupancy_end := p.1.end_datetime,
        previous_occupancy_start := p.1.start_datetime,
        previous_occupancy_end := p.1.end_datetime } }

/-- The store as `reset` first builds it, before seeding: every table
empty, every counter zero. -/
def empty_db : JSONDatabase :=
  { dirty := true, delay := 0, users := [], tokens := [], classrooms := [],
    classes := [], subjects := [], subjects_teachers := [], subjects_students := [],
    occupancies := [], modifications := fun _ => [], next_user_id := 0,
    next_classroom_id := 0, next_class_id := 0, next_subject_id := 0,
    next_subject_teacher_id := 0, next_subject_students_id := 0, next_occupancy_id := 0 }

/-- A small concrete store used to instantiate theorems: one
administrator, one classroom, one class, one subject taught by teacher
id 1, one occupancy. -/
def sample_user : User :=
  { id := 0, first_name := "John", last_name := "Doe", username := "doe.john",
    password := "pw", kind := UserKind.Administrator }

def sample_occupancy : Occupancy :=
  { id := 0, classroom_id := some 0, group_number := none, subject_id := none,
    teacher_id := 1, start_datetime := 600, end_datetime := 660,
    occupancy_type := OccupancyType.CM, name := "maths" }

def sample_db : JSONDatabase :=
  { empty_db with
    users := [sample_user],
    classrooms := [{ id := 0, name := "A101", capacity := 30 }],
    classes := [{ id := 0, name := "L3", level := ClassLevel.L3 }],
    subjects := [{ id := 0, class_id := 0, name := "Math", group_count := 1 }],
    subjects_teachers := [{ id := 0, teacher_id := 1, subject_id := 0, in_charge := true }],
    occupancies := [sample_occupancy],
    next_user_id := 1, next_classroom_id := 1, next_class_id := 1,
    next_subject_id := 1, next_subject_teacher_id := 1, next_occupancy_id := 1 }

/-- A subject-less occupancy request in classroom 0 at 600–660. -/
def sample_new_occupancy : NewOccupancy :=
  { classroom_id := some 0, group_number := none, subject_id := none,
    teacher_id := 1, start_datetime := 600, end_datetime := 660,
    occupancy_type := OccupancyType.CM, name := "maths" }

/-- `sample_db` after a first login of `doe.john` with token `tok1`. -/
def sample_db_login1 : JSONDatabase :=
  { sample_db with tokens := [("tok1", "doe.john")], dirty := true }

/-- `sample_db_login1` after a second login of `doe.john` with token
`tok2` (the bimap insertion dropped `tok1`). -/
def sample_db_login2 : JSONDatabase :=
  { sample_db with tokens := [("tok2", "doe.john")], dirty := true }

/-- Analysis helper: the list state of the `group_numbers` loop after
some number of round-robin increments — the first `a` groups hold
`q + 1`, the remaining `g - a` hold `q`. -/
def rr_shape (g q a : Nat) : List Nat :=
  List.replicate a (q + 1) ++ List.replicate (g - a) q

/-- A subject-less occupancy creation by teacher 7 (for the audit-cap
scenario). -/
def c9_occ : NewOccupancy :=
  { classroom_id := none, group_number := none, subject_id := none,
    teacher_id := 7, start_datetime := 0, end_datetime := 60,
    occupancy_type := OccupancyType.CM, name := "s" }

/-- Thirty subject-less creations by teacher 7 with timestamps 0..29. -/
def c9_creations : List (NewOccupancy × Nat) :=
  (List.range 30).map (fun i => (c9_occ, i))

/-- Analysis helper: the effect of one `update_row` write when the
target row is unique — rewrite the matching row's `group_number`. -/
def single_assign (sid stid g : Nat) (ss : StudentSubject) : StudentSubject :=
  if ss.student_id = stid ∧ ss.subject_id = sid then { ss with group_number := g } else ss

/-- Analysis helper: the cumulative effect of the assignment loop — a
row of the subject takes the group number its student is zipped with. -/
def zl_assign (sid : Nat) (zl : List (Nat × Nat)) (ss : StudentSubject) : StudentSubject :=
  match zl.find? (fun p => p.1 == ss.student_id) with
  | some p => if ss.subject_id = sid then { ss with group_number := p.2 } else ss
  | none => ss

def c2_alice : User :=
  { id := 1, first_name := "Alice", last_name := "Adams", username := "adams.alice",
    password := "pw", kind := UserKind.Student { class_id := 0 } }

def c2_bob : User :=
  { id := 2, first_name := "Bob", last_name := "Brown", username := "brown.bob",
    password := "pw", kind := UserKind.Student { class_id := 0 } }

def c2_carol : User :=
  { id := 3, first_name := "Carol", last_name := "Clark", username := "clark.carol",
    password := "pw", kind := UserKind.Student { class_id := 0 } }

/-- Three students (ids 1, 2, 3) enrolled in subject 0, which has two
groups. -/
def c2_db : JSONDatabase :=
  { empty_db with
    users := [c2_alice, c2_bob, c2_carol],
    classes := [{ id := 0, name := "L3", level := ClassLevel.L3 }],
    subjects := [{ id := 0, class_id := 0, name := "Math", group_count := 2 }],
    subjects_students :=
      [{ id := 0, subject_id := 0, student_id := 1, group_number := 0 },
       { id := 1, subject_id := 0, student_id := 2, group_number := 0 },
       { id := 2, subject_id := 0, student_id := 3, group_number := 0 }],
    next_user_id := 4, next_class_id := 1, next_subject_id := 1,
    next_subject_students_id := 3 }

/-- The ids of the enrolled students in the sorted-by-full-name order
used by `_distribute_subject_groups`. -/
def sorted_ids (students : List User) : List Nat :=
  (sort_stable (fun a b => str_le a.full_name b.full_name) students).map (fun s => s.id)

/-- One StudentSubject row is in range: its `group_number` is below the
`group_count` of the subject it references (vacuous if the subject is
gone). -/
def group_number_ok (db : JSONDatabase) (ss : StudentSubject) : Bool :=
  match subject_get db ss.subject_id with
  | some subject => decide (ss.group_number < subject.group_count)
  | none => true

/-- The C7 invariant: every join row's `group_number` lies in
`[0, group_count)` of its subject. -/
def group_number_inv (db : JSONDatabase) : Bool :=
  db.subjects_students.all (group_number_ok db)

/-- `c2_db` after a distribution into two groups: Carol (sorted last)
is in group 1. -/
def c7_db : JSONDatabase :=
  { c2_db with
    subjects_students :=
      [{ id := 0, subject_id := 0, student_id := 1, group_number := 0 },
       { id := 1, subject_id := 0, student_id := 2, group_number := 0 },
       { id := 2, subject_id := 0, student_id := 3, group_number := 1 }] }

/-- The number of `in_charge` rows a subject id has in the join table. -/
def in_charge_count (db : JSONDatabase) (sid : Nat) : Nat :=
  db.subjects_teachers.countP (fun st => st.subject_id == sid && st.in_charge)

/-- The C3 invariant: every subject present in the subjects table has
exactly one `in_charge = true` row. -/
def in_charge_inv (db : JSONDatabase) : Bool :=
  db.subjects.all (fun subject => in_charge_count db subject.id == 1)

/-- A fresh subject for class 0 whose teacher in charge is teacher 5. -/
def c3_ns : NewSubject :=
  { class_id := 0, name := "Physics", teacher_in_charge_id := 5 }

/-- An update that only replaces the teacher in charge (with teacher 3). -/
def c3_update : SubjectUpdate :=
  { class_id := none, name := none, teacher_in_charge_id := some 3 }

/-! ## Theorems -/

theorem subject_case_eq_true (x : Option Subject) (p : Subject → Bool) :
    subject_case x p = true ↔ ∃ subject, x = some subject ∧ p subject = true := by
  cases x <;> simp [subject_case]

theorem occupancy_window_check_eq (from_dt to_dt : Option Nat) (o : Occupancy) :
    occupancy_window_check from_dt to_dt o = true ↔
      (from_dt = none ∨ ∃ f, from_dt = some f ∧ f ≤ o.start_datetime) ∧
      (to_dt = none ∨ ∃ t, to_dt = some t ∧ o.end_datetime ≤ t) := by
  cases from_dt <;> cases to_dt <;>
    simp only [occupancy_window_check, occupancy_to_check] <;>
    constructor <;> intro h <;> first
      | (constructor <;> simp_all <;> omega)
      | (split at h <;> simp_all <;> omega)
      | (split <;> simp_all <;> omega)

/-- C10: `occupancies_list` returns exactly the occupancies contained
in the optional window — `start_datetime ≥ from` when `from` is given
and `end_datetime ≤ to` when `to` is given; with both bounds absent it
returns every occupancy. -/
theorem claim_C10 (db : JSONDatabase) (from_dt to_dt : Option Nat) :
    (∀ o : Occupancy,
      o ∈ occupancies_list db from_dt to_dt ↔
        o ∈ db.occupancies ∧
          (from_dt = none ∨ ∃ f, from_dt = some f ∧ f ≤ o.start_datetime) ∧
          (to_dt = none ∨ ∃ t, to_dt = some t ∧ o.end_datetime ≤ t)) ∧
    occupancies_list db none none = db.occupancies := by
  constructor
  · intro o
    rw [occupancies_list, List.mem_filter, occupancy_window_check_eq]
  · exact List.filter_eq_self.mpr (fun o _ => rfl)

theorem occupancies_add_occupancies {db db' : JSONDatabase} {occ : NewOccupancy} {now : Nat}
    (h : occupancies_add db occ now = some db') :
    db'.occupancies = db.occupancies ++
      [{ id := db.next_occupancy_id, classroom_id := occ.classroom_id,
         group_number := occ.group_number, subject_id := occ.subject_id,
         teacher_id := occ.teacher_id, start_datetime := occ.start_datetime,
         end_datetime := occ.end_datetime, occupancy_type := occ.occupancy_type,
         name := occ.name }] := by
  rw [occupancies_add, _add_occupancy] at h
  cases haff : occ_affected_users db occ with
  | none => rw [haff] at h; simp at h
  | some affected =>
    cases hres : occ_subject_resolve db occ.subject_id with
    | none => rw [haff, hres] at h; simp at h
    | some subject =>
      rw [haff, hres] at h
      simp only [Option.map_some', Option.some.injEq] at h
      subst h
      rfl

/-- C1: each of the four `*_free` predicates is `false` exactly when
some occupancy of the named resource is *contained* in the window
(`start ≥ from` and `end ≤ to` — not general interval overlap); on an
empty occupancy table `classroom_free` is `true`, and it turns `false`
after adding an occupancy in that classroom whose interval lies inside
the window. -/
theorem claim_C1 (db : JSONDatabase)
    (classroom_id teacher_id class_id subject_id group_number from_dt to_dt : Nat) :
    (classroom_free db classroom_id from_dt to_dt = false ↔
      ∃ o ∈ db.occupancies, o.classroom_id = some classroom_id ∧
        from_dt ≤ o.start_datetime ∧ o.end_datetime ≤ to_dt) ∧
    (teacher_free db teacher_id from_dt to_dt = false ↔
      ∃ o ∈ db.occupancies, o.teacher_id = teacher_id ∧
        from_dt ≤ o.start_datetime ∧ o.end_datetime ≤ to_dt) ∧
    (class_free db class_id from_dt to_dt = false ↔
      ∃ o ∈ db.occupancies, ∃ subject,
        o.subject_id.bind (subject_get db) = some subject ∧
        (subject.class_id = class_id ∧
          from_dt ≤ o.start_datetime ∧ o.end_datetime ≤ to_dt)) ∧
    (group_free db class_id subject_id group_number from_dt to_dt = false ↔
      ∃ o ∈ db.occupancies, ∃ subject,
        o.subject_id.bind (subject_get db) = some subject ∧
        (subject.id = subject_id ∧ subject.class_id = class_id ∧
          (from_dt ≤ o.start_datetime ∧ o.end_datetime ≤ to_dt) ∧
          o.group_number = some group_number)) ∧
    (db.occupancies = [] → classroom_free db classroom_id from_dt to_dt = true) ∧
    (∀ (occ : NewOccupancy) (now : Nat) (db' : JSONDatabase),
      occ.classroom_id = some classroom_id →
      from_dt ≤ occ.start_datetime → occ.end_datetime ≤ to_dt →
      occupancies_add db occ now = some db' →
      classroom_free db' classroom_id from_dt to_dt = false) := by
  refine ⟨?_, ?_, ?_, ?_, ?_, ?_⟩
  · simp [classroom_free, List.any_eq_true, and_assoc]
  · simp [teacher_free, List.any_eq_true, and_assoc]
  · simp [class_free, List.any_eq_true, subject_case_eq_true, and_assoc]
  · simp [group_free, List.any_eq_true, subject_case_eq_true, and_assoc]
  · intro h
    simp [classroom_free, h]
  · intro occ now db' hcl hf ht hadd
    have hocc := occupancies_add_occupancies hadd
    simp [classroom_free, hocc, hcl, hf, ht]

/-- C5: every bulk removal validates all ids first: when one is
missing the store is returned untouched with `false`; when all exist
exactly the named rows are removed and the result is `true`. -/
theorem claim_C5 (db : JSONDatabase) (ids : List Nat) :
    ((¬ ∀ id ∈ ids, ∃ c ∈ db.classrooms, c.id = id) →
      classroom_remove db ids = (db, false)) ∧
    ((∀ id ∈ ids, ∃ c ∈ db.classrooms, c.id = id) →
      classroom_remove db ids =
        ({ db with classrooms := db.classrooms.filter (fun c => !(ids.contains c.id)),
                   dirty := true }, true)) ∧
    ((¬ ∀ id ∈ ids, ∃ c ∈ db.classes, c.id = id) →
      class_remove db ids = (db, false)) ∧
    ((∀ id ∈ ids, ∃ c ∈ db.classes, c.id = id) →
      class_remove db ids =
        ({ db with classes := db.classes.filter (fun c => !(ids.contains c.id)),
                   dirty := true }, true)) ∧
    ((¬ ∀ id ∈ ids, ∃ s ∈ db.subjects, s.id = id) →
      subject_remove db ids = (db, false)) ∧
    ((∀ id ∈ ids, ∃ s ∈ db.subjects, s.id = id) →
      subject_remove db ids =
        ({ db with subjects := db.subjects.filter (fun s => !(ids.contains s.id)),
                   dirty := true }, true)) ∧
    ((¬ ∀ id ∈ ids, ∃ o ∈ db.occupancies, o.id = id) →
      occupancies_remove db ids = (db, false)) ∧
    ((∀ id ∈ ids, ∃ o ∈ db.occupancies, o.id = id) →
      occupancies_remove db ids =
        ({ db with occupancies := db.occupancies.filter (fun o => !(ids.contains o.id)),
                   dirty := true }, true)) ∧
    ((¬ ∀ id ∈ ids, ∃ u ∈ db.users, u.id = id) →
      user_remove db ids = (db, false)) ∧
    ((∀ id ∈ ids, ∃ u ∈ db.users, u.id = id) →
      (user_remove db ids).2 = true ∧
      (user_remove db ids).1.users = db.users.filter (fun u => !(ids.contains u.id)) ∧
      (user_remove db ids).1.classrooms = db.classrooms ∧
      (user_remove db ids).1.classes = db.classes ∧
      (user_remove db ids).1.subjects = db.subjects ∧
      (user_remove db ids).1.subjects_teachers = db.subjects_teachers ∧
      (user_remove db ids).1.subjects_students = db.subjects_students ∧
      (user_remove db ids).1.occupancies = db.occupancies) := by
  refine ⟨?_, ?_, ?_, ?_, ?_, ?_, ?_, ?_, ?_, ?_⟩
  · intro h
    have hx : (ids.all (fun id => db.classrooms.any (fun c => c.id == id))) = false := by
      simpa [List.all_eq_true, List.any_eq_true] using h
    simp [classroom_remove, hx]
  · intro h
    have hx : (ids.all (fun id => db.classrooms.any (fun c => c.id == id))) = true := by
      simpa [List.all_eq_true, List.any_eq_true] using h
    simp [classroom_remove, hx]
  · intro h
    have hx : (ids.all (fun id => db.classes.any (fun c => c.id == id))) = false := by
      simpa [List.all_eq_true, List.any_eq_true] using h
    simp [class_remove, hx]
  · intro h
    have hx : (ids.all (fun id => db.classes.any (fun c => c.id == id))) = true := by
      simpa [List.all_eq_true, List.any_eq_true] using h
    simp [class_remove, hx]
  · intro h
    have hx : (ids.all (fun id => db.subjects.any (fun s => s.id == id))) = false := by
      simpa [List.all_eq_true, List.any_eq_true] using h
    simp [subject_remove, hx]
  · intro h
    have hx : (ids.all (fun id => db.subjects.any (fun s => s.id == id))) = true := by
      simpa [List.all_eq_true, List.any_eq_true] using h
    simp [subject_remove, hx]
  · intro h
    have hx : (ids.all (fun id => db.occupancies.any (fun o => o.id == id))) = false := by
      simpa [List.all_eq_true, List.any_eq_true] using h
    simp [occupancies_remove, hx]
  · intro h
    have hx : (ids.all (fun id => db.occupancies.any (fun o => o.id == id))) = true := by
      simpa [List.all_eq_true, List.any_eq_true] using h
    simp [occupancies_remove, hx]
  · intro h
    push_neg at h
    simp only [user_remove]
    simp
    exact h
  · intro h
    have hni : ¬ ∃ x ∈ ids, ∀ u ∈ db.users, ¬u.id = x := by
      intro hc
      obtain ⟨x, hmem, hall⟩ := hc
      obtain ⟨u, hu, he⟩ := h x hmem
      exact hall u hu he
    simp [user_remove, hni]

theorem claim_C5_witness :
    classroom_remove sample_db [0, 5] = (sample_db, false) ∧
    classroom_remove sample_db [0] =
      ({ sample_db with
         classrooms := sample_db.classrooms.filter (fun c => !([0].contains c.id)),
         dirty := true }, true) ∧
    class_remove sample_db [0, 5] = (sample_db, false) ∧
    class_remove sample_db [0] =
      ({ sample_db with
         classes := sample_db.classes.filter (fun c => !([0].contains c.id)),
         dirty := true }, true) ∧
    subject_remove sample_db [0, 5] = (sample_db, false) ∧
    subject_remove sample_db [0] =
      ({ sample_db with
         subjects := sample_db.subjects.filter (fun x => !([0].contains x.id)),
         dirty := true }, true) ∧
    occupancies_remove sample_db [0, 5] = (sample_db, false) ∧
    occupancies_remove sample_db [0] =
      ({ sample_db with
         occupancies := sample_db.occupancies.filter (fun o => !([0].contains o.id)),
         dirty := true }, true) ∧
    user_remove sample_db [0, 5] = (sample_db, false) ∧
    ((user_remove sample_db [0]).2 = true ∧
      (user_remove sample_db [0]).1.users =
        sample_db.users.filter (fun u => !([0].contains u.id))) := by
  refine ⟨(claim_C5 sample_db [0, 5]).1 ?_,
    (claim_C5 sample_db [0]).2.1 ?_,
    (claim_C5 sample_db [0, 5]).2.2.1 ?_,
    (claim_C5 sample_db [0]).2.2.2.1 ?_,
    (claim_C5 sample_db [0, 5]).2.2.2.2.1 ?_,
    (claim_C5 sample_db [0]).2.2.2.2.2.1 ?_,
    (claim_C5 sample_db [0, 5]).2.2.2.2.2.2.1 ?_,
    (claim_C5 sample_db [0]).2.2.2.2.2.2.2.1 ?_,
    (claim_C5 sample_db [0, 5]).2.2.2.2.2.2.2.2.1 ?_, ?_⟩ <;>
    first
      | decide
      | exact ⟨((claim_C5 sample_db [0]).2.2.2.2.2.2.2.2.2 (by decide)).1,
          ((claim_C5 sample_db [0]).2.2.2.2.2.2.2.2.2 (by decide)).2.1⟩

/-- C4 counterexample: in `sample_db`, after a successful login with
token `tok1` that token resolves; a second successful login of the
same username (token `tok2`) removes the `tok1` binding from the
bimap, so `tok1` no longer resolves — refuting the claim that the
first token still resolves. -/
theorem claim_C4_counterexample :
    ((auth_login sample_db "doe.john" "pw" "tok1").bind (fun r =>
      (auth_login r.1 "doe.john" "pw" "tok2").map (fun r2 =>
        (auth_get_user r.1 "tok1", auth_get_user r2.1 "tok1")))) =
      some (some sample_user, none) := rfl

/-- C4 (amended): a second successful login of the same username
*invalidates* the token of the first login — `auth_get_user` on the
first token yields `none` afterwards, while the second token resolves
to the user (bimap insertion removes the pair sharing the username). -/
theorem claim_C4_amended (db db1 db2 : JSONDatabase)
    (username password t1 t2 : String) (u1 u2 : User)
    (hne : t1 ≠ t2)
    (h1 : auth_login db username password t1 = some (db1, u1))
    (h2 : auth_login db1 username password t2 = some (db2, u2)) :
    auth_get_user db2 t1 = none ∧ auth_get_user db2 t2 = some u2 := by
  rw [auth_login] at h1 h2
  cases hu : user_get db username with
  | none => simp [hu] at h1
  | some u =>
    simp only [hu] at h1
    by_cases hpw : (password != u.password) = true
    · simp [hpw] at h1
    · rw [if_neg hpw] at h1
      simp only [Option.some.injEq, Prod.mk.injEq] at h1
      obtain ⟨hdb1, hu1⟩ := h1
      have husers : db1.users = db.users := by rw [← hdb1]
      have hu' : user_get db1 username = some u := by
        rw [user_get, husers]; exact hu
      simp only [hu'] at h2
      rw [if_neg hpw] at h2
      simp only [Option.some.injEq, Prod.mk.injEq] at h2
      obtain ⟨hdb2, hu2⟩ := h2
      have htok1 : db1.tokens = bimap_insert db.tokens t1 username := by rw [← hdb1]
      have htok2 : db2.tokens = bimap_insert db1.tokens t2 username := by rw [← hdb2]
      constructor
      · rw [auth_get_user]
        have hfind : db2.tokens.find? (fun p => p.1 == t1) = none := by
          rw [List.find?_eq_none]
          intro p hp
          rw [htok2, bimap_insert, List.mem_append] at hp
          rcases hp with hp | hp
          · rw [List.mem_filter] at hp
            obtain ⟨hp1, hp2⟩ := hp
            rw [htok1, bimap_insert, List.mem_append] at hp1
            simp only [Bool.and_eq_true, bne_iff_ne, ne_eq] at hp2
            rcases hp1 with hp1 | hp1
            · rw [List.mem_filter] at hp1
              simp only [Bool.and_eq_true, bne_iff_ne, ne_eq] at hp1
              simp only [beq_iff_eq]
              intro hc
              exact hp1.2.1 hc
            · simp only [List.mem_singleton] at hp1
              subst hp1
              exact absurd rfl hp2.2
          · simp only [List.mem_singleton] at hp
            subst hp
            simp only [beq_iff_eq]
            exact fun hc => hne (hc.symm)
        rw [hfind]
        rfl
      · rw [auth_get_user]
        have hfind : db2.tokens.find? (fun p => p.1 == t2) = some (t2, username) := by
          rw [htok2, bimap_insert, List.find?_append]
          have hnone : (db1.tokens.filter (fun p => p.1 != t2 && p.2 != username)).find?
              (fun p => p.1 == t2) = none := by
            rw [List.find?_eq_none]
            intro p hp
            rw [List.mem_filter] at hp
            simp only [Bool.and_eq_true, bne_iff_ne, ne_eq] at hp
            simp only [beq_iff_eq]
            exact hp.2.1
          rw [hnone]
          simp
        have husers2 : db2.users = db.users := by rw [← hdb2, husers]
        rw [hfind]
        show user_get db2 username = some u2
        rw [user_get, husers2, ← user_get, hu, hu2]

theorem claim_C4_amended_witness :
    auth_get_user sample_db_login2 "tok1" = none ∧
    auth_get_user sample_db_login2 "tok2" = some sample_user :=
  claim_C4_amended sample_db sample_db_login1 sample_db_login2
    "doe.john" "pw" "tok1" "tok2" sample_user sample_user
    (by decide) rfl rfl

theorem claim_C1_witness :
    classroom_free empty_db 0 600 720 = true ∧
    (∃ db', occupancies_add empty_db sample_new_occupancy 5 = some db' ∧
      classroom_free db' 0 600 720 = false) := by
  constructor
  · exact (claim_C1 empty_db 0 0 0 0 0 600 720).2.2.2.2.1 rfl
  · refine ⟨_, rfl, ?_⟩
    exact (claim_C1 empty_db 0 0 0 0 0 600 720).2.2.2.2.2 sample_new_occupancy 5 _
      rfl (by decide) (by decide) rfl

theorem rr_shape_zero (g q : Nat) : rr_shape g q 0 = List.replicate g q := by
  simp [rr_shape]

theorem rr_shape_full (g q : Nat) : rr_shape g q g = rr_shape g (q + 1) 0 := by
  simp [rr_shape]

theorem rr_shape_getD (g q a : Nat) (ha : a < g) : (rr_shape g q a).getD a 0 = q := by
  rw [rr_shape, List.getD_append_right _ _ _ _ (by simp)]
  simp only [List.length_replicate, Nat.sub_self]
  have h1 : g - a = (g - a - 1) + 1 := by omega
  rw [h1, List.replicate_succ]
  rfl

theorem rr_shape_set (g q a : Nat) (ha : a < g) :
    (rr_shape g q a).set a (q + 1) = rr_shape g q (a + 1) := by
  rw [rr_shape, List.set_append_right _ _ (by simp)]
  simp only [List.length_replicate, Nat.sub_self]
  have h1 : g - a = (g - a - 1) + 1 := by omega
  rw [h1, List.replicate_succ, List.set_cons_zero, rr_shape]
  have h2 : g - (a + 1) = g - a - 1 := by omega
  rw [h2, List.replicate_succ']
  simp

theorem group_numbers_go_shape (g : Nat) (hg : 0 < g) :
    ∀ (r q a : Nat), a < g →
      group_numbers_go g r a (rr_shape g q a) =
        rr_shape g ((q * g + a + r) / g) ((q * g + a + r) % g) := by
  intro r
  induction r with
  | zero =>
    intro q a ha
    rw [group_numbers_go]
    have h1 : (q * g + a + 0) / g = q := by
      rw [Nat.add_zero, Nat.mul_comm, Nat.mul_add_div hg, Nat.div_eq_of_lt ha, Nat.add_zero]
    have h2 : (q * g + a + 0) % g = a := by
      rw [Nat.add_zero, Nat.mul_comm, Nat.mul_add_mod, Nat.mod_eq_of_lt ha]
    rw [h1, h2]
  | succ n ih =>
    intro q a ha
    rw [group_numbers_go]
    simp only [rr_shape_getD g q a ha, rr_shape_set g q a ha]
    by_cases hag : a + 1 = g
    · rw [if_pos hag]
      rw [hag, rr_shape_full]
      have hmul : (q + 1) * g = q * g + g := by ring
      have harg : q * g + a + (n + 1) = (q + 1) * g + 0 + n := by omega
      rw [harg]
      exact ih (q + 1) 0 hg
    · rw [if_neg hag]
      have ha1 : a + 1 < g := by omega
      have harg : q * g + a + (n + 1) = q * g + (a + 1) + n := by omega
      rw [harg]
      exact ih q (a + 1) ha1

theorem group_numbers_eq (n g : Nat) (hg : 0 < g) :
    group_numbers n g = rr_shape g (n / g) (n % g) := by
  rw [group_numbers, ← rr_shape_zero g 0]
  rw [group_numbers_go_shape g hg n 0 0 hg]
  congr 1 <;> simp

/-- C6: for `g ≥ 1` the per-group sizes computed by `group_numbers`
sum to the student count and pairwise differ by at most 1. -/
theorem claim_C6 (n g : Nat) (hg : 1 ≤ g) :
    (group_numbers n g).sum = n ∧
    ∀ x ∈ group_numbers n g, ∀ y ∈ group_numbers n g, x ≤ y + 1 := by
  rw [group_numbers_eq n g hg]
  have hmod : n % g < g := Nat.mod_lt _ hg
  constructor
  · rw [rr_shape, List.sum_append, List.sum_replicate, List.sum_replicate]
    simp only [smul_eq_mul]
    have h1 : (n % g) * (n / g + 1) = (n % g) * (n / g) + (n % g) := by ring
    have h2 : (g - n % g) * (n / g) = g * (n / g) - (n % g) * (n / g) := Nat.sub_mul _ _ _
    have h3 : (n % g) * (n / g) ≤ g * (n / g) := Nat.mul_le_mul_right _ hmod.le
    have h4 := Nat.mod_add_div n g
    omega
  · intro x hx y hy
    rw [rr_shape, List.mem_append] at hx hy
    have hx' : x = n / g + 1 ∨ x = n / g := by
      rcases hx with hx | hx
      · exact Or.inl (List.eq_of_mem_replicate hx)
      · exact Or.inr (List.eq_of_mem_replicate hx)
    have hy' : y = n / g + 1 ∨ y = n / g := by
      rcases hy with hy | hy
      · exact Or.inl (List.eq_of_mem_replicate hy)
      · exact Or.inr (List.eq_of_mem_replicate hy)
    omega

theorem claim_C6_witness :
    (group_numbers 7 3).sum = 7 ∧
    ∀ x ∈ group_numbers 7 3, ∀ y ∈ group_numbers 7 3, x ≤ y + 1 :=
  claim_C6 7 3 (by decide)

theorem search_go_all_skipped {T : Type} (pred : T → Bool) (to_skip : Nat) :
    ∀ (l : List T) (total skipped : Nat) (results : List T),
      skipped + l.length ≤ to_skip →
      search_go pred to_skip l total skipped results =
        (total + (l.filter pred).length, results) := by
  intro l
  induction l with
  | nil => intro total skipped results h; simp [search_go]
  | cons a l ih =>
    intro total skipped results h
    rw [search_go]
    by_cases hp : pred a = true
    · rw [hp]
      simp only [Bool.not_true, Bool.false_eq_true, if_false]
      rw [if_pos (by simp at h; omega)]
      rw [ih (total + 1) (skipped + 1) results (by simp at h ⊢; omega)]
      rw [List.filter_cons_of_pos hp]
      simp only [List.length_cons]
      congr 1
      omega
    · rw [Bool.not_eq_true] at hp
      rw [hp]
      simp only [Bool.not_false, if_true]
      rw [ih total skipped results (by simp at h ⊢; omega)]
      rw [List.filter_cons_of_neg (by simp [hp])]
  termination_by l => l.length

theorem search_go_zero_skip {T : Type} (pred : T → Bool) :
    ∀ (l : List T) (total skipped : Nat) (results : List T),
      search_go pred 0 l total skipped results =
        (total + (l.filter pred).length,
         results ++ (l.filter pred).take (PAGE_SIZE - results.length)) := by
  intro l
  induction l with
  | nil => intro total skipped results; simp [search_go]
  | cons a l ih =>
    intro total skipped results
    rw [search_go]
    by_cases hp : pred a = true
    · rw [hp]
      simp only [Bool.not_true, Bool.false_eq_true, if_false]
      rw [if_neg (by omega)]
      by_cases hlen : results.length < PAGE_SIZE
      · rw [if_pos hlen, ih (total + 1) skipped (results ++ [a])]
        rw [List.filter_cons_of_pos hp]
        simp only [List.length_cons, List.length_append, List.length_singleton,
          Prod.mk.injEq]
        refine ⟨by omega, ?_⟩
        have h10 : PAGE_SIZE - results.length = (PAGE_SIZE - (results.length + 1)) + 1 := by
          rw [PAGE_SIZE] at hlen ⊢; omega
        rw [h10, List.take_succ_cons, List.append_assoc, List.singleton_append]
        simp
      · rw [if_neg hlen, ih (total + 1) skipped results]
        rw [List.filter_cons_of_pos hp]
        have h10 : PAGE_SIZE - results.length = 0 := by
          rw [PAGE_SIZE] at hlen ⊢; omega
        simp only [h10, List.take_zero, List.length_cons, List.append_nil, Prod.mk.injEq]
        exact ⟨by omega, trivial⟩
    · rw [Bool.not_eq_true] at hp
      rw [hp]
      simp only [Bool.not_false, if_true]
      rw [ih total skipped results, List.filter_cons_of_neg (by simp [hp])]

/-- C8 counterexample: on a store with one classroom, the engine-level
`classroom_list` with page 0 does not return the same page slice as
page 1 — the `(page - 1) * PAGE_SIZE` offset underflows `usize`
(wrapping in release builds), so page 0 skips everything. -/
theorem claim_C8_counterexample :
    classroom_list (fun x => x) sample_db 0 none ≠
      classroom_list (fun x => x) sample_db 1 none := by
  decide

/-- C8 (amended): the engine's `_search` does *not* normalize page
numbers below 1 (the HTTP layer does); with page 0 the wrapped offset
`(0 - 1) * PAGE_SIZE` exceeds any realistic collection, so the slice
comes back empty while the total still counts every match; page 1
returns the first `PAGE_SIZE` matches. -/
theorem claim_C8_amended {T : Type} (translit : String → String) (collection : List T)
    (property : T → String) (query : Option String) (custom_filter : T → Bool)
    (hlen : collection.length ≤ USIZE_MOD - 10) :
    _search translit collection property (some 0) query custom_filter =
      ((collection.filter (fun row =>
          contains_query translit query property row && custom_filter row)).length, []) ∧
    _search translit collection property (some 1) query custom_filter =
      ((collection.filter (fun row =>
          contains_query translit query property row && custom_filter row)).length,
       (collection.filter (fun row =>
          contains_query translit query property row && custom_filter row)).take PAGE_SIZE) := by
  have ht0 : (0 + USIZE_MOD - 1) % USIZE_MOD * PAGE_SIZE % USIZE_MOD = USIZE_MOD - 10 := by
    decide
  have ht1 : (1 + USIZE_MOD - 1) % USIZE_MOD * PAGE_SIZE % USIZE_MOD = 0 := by
    decide
  constructor
  · rw [_search]
    simp only [ht0]
    rw [search_go_all_skipped _ _ collection 0 0 [] (by omega)]
    simp
  · rw [_search]
    simp only [ht1]
    rw [search_go_zero_skip _ collection 0 0 []]
    simp

theorem claim_C8_amended_witness :
    _search (fun x => x) sample_db.classrooms (fun c => c.name) (some 0) none
        (fun _ => true) =
      ((sample_db.classrooms.filter (fun row =>
          contains_query (fun x => x) none (fun c => c.name) row && true)).length, []) ∧
    _search (fun x => x) sample_db.classrooms (fun c => c.name) (some 1) none
        (fun _ => true) =
      ((sample_db.classrooms.filter (fun row =>
          contains_query (fun x => x) none (fun c => c.name) row && true)).length,
       (sample_db.classrooms.filter (fun row =>
          contains_query (fun x => x) none (fun c => c.name) row && true)).take PAGE_SIZE) :=
  claim_C8_amended (fun x => x) sample_db.classrooms (fun c => c.name) none
    (fun _ => true) (by decide)

theorem occupancies_add_no_subject (db : JSONDatabase) (occ : NewOccupancy) (now : Nat)
    (hsub : occ.subject_id = none) :
    occupancies_add db occ now = some
      { db with
        dirty := true,
        occupancies := db.occupancies ++
          [{ id := db.next_occupancy_id, classroom_id := occ.classroom_id,
             group_number := occ.group_number, subject_id := occ.subject_id,
             teacher_id := occ.teacher_id, start_datetime := occ.start_datetime,
             end_datetime := occ.end_datetime, occupancy_type := occ.occupancy_type,
             name := occ.name }],
        next_occupancy_id := db.next_occupancy_id + 1,
        modifications := fun x =>
          if x = occ.teacher_id
          then (creation_record (occ, now) :: db.modifications x).take 25
          else db.modifications x } := by
  rw [occupancies_add, _add_occupancy, occ_affected_users, hsub]
  rfl

theorem take_append_take {α : Type} (n : Nat) (xs ys : List α) :
    (xs ++ ys.take n).take n = (xs ++ ys).take n := by
  rw [List.take_append_eq_append_take, List.take_append_eq_append_take, List.take_take]
  rw [Nat.min_eq_left (Nat.sub_le n xs.length)]

theorem take_chain (recs : List Modification) :
    ∀ init : List Modification, init.length ≤ 25 →
      recs.foldl (fun acc r => (r :: acc).take 25) init = (recs.reverse ++ init).take 25 := by
  induction recs with
  | nil =>
    intro init h
    simp [List.take_of_length_le h]
  | cons r recs ih =>
    intro init h
    rw [List.foldl_cons, ih ((r :: init).take 25) (by rw [List.length_take]; omega)]
    rw [take_append_take, List.reverse_cons, List.append_assoc, List.singleton_append]

theorem occupancies_add_all_mods (u : Nat) :
    ∀ (creations : List (NewOccupancy × Nat)) (db : JSONDatabase),
      (∀ p ∈ creations, p.1.subject_id = none ∧ p.1.teacher_id = u) →
      ∃ db', occupancies_add_all db creations = some db' ∧
        db'.modifications u =
          (creations.map creation_record).foldl
            (fun acc r => (r :: acc).take 25) (db.modifications u) := by
  intro creations
  induction creations with
  | nil => intro db _; exact ⟨db, rfl, rfl⟩
  | cons p creations ih =>
    intro db hc
    obtain ⟨hsub, hteach⟩ := hc p (List.mem_cons_self _ _)
    have hstep := occupancies_add_no_subject db p.1 p.2 hsub
    obtain ⟨db', h1, h2⟩ := ih _ (fun q hq => hc q (List.mem_cons_of_mem _ hq))
    refine ⟨db', ?_, ?_⟩
    · rw [occupancies_add_all, List.foldlM_cons, hstep]
      exact h1
    · rw [List.map_cons, List.foldl_cons, h2]
      congr 1
      simp [hteach]

/-- C9: after a sequence of ≥ 25 occupancy creations each affecting
user `u` (here: `u` is the teacher of each, subject-less so the
affected set is exactly `[u]`), `last_occupancies_modifications u`
holds exactly the 25 most recent `Create` records, newest first. -/
theorem claim_C9 (db : JSONDatabase) (u : Nat) (creations : List (NewOccupancy × Nat))
    (hc : ∀ p ∈ creations, p.1.subject_id = none ∧ p.1.teacher_id = u)
    (hlen : 25 ≤ creations.length)
    (hinit : (db.modifications u).length ≤ 25) :
    ∃ db', occupancies_add_all db creations = some db' ∧
      last_occupancies_modifications db' u =
        ((creations.map creation_record).reverse).take 25 ∧
      (last_occupancies_modifications db' u).length = 25 := by
  obtain ⟨db', h1, h2⟩ := occupancies_add_all_mods u creations db hc
  have hrevlen : 25 ≤ ((creations.map creation_record).reverse).length := by
    rw [List.length_reverse, List.length_map]
    exact hlen
  have hmods : last_occupancies_modifications db' u =
      ((creations.map creation_record).reverse).take 25 := by
    rw [last_occupancies_modifications, h2, take_chain _ _ hinit,
      List.take_append_of_le_length hrevlen]
  refine ⟨db', h1, hmods, ?_⟩
  rw [hmods, List.length_take]
  omega

theorem claim_C9_witness :
    ∃ db', occupancies_add_all empty_db c9_creations = some db' ∧
      last_occupancies_modifications db' 7 =
        ((c9_creations.map creation_record).reverse).take 25 ∧
      (last_occupancies_modifications db' 7).length = 25 :=
  claim_C9 empty_db 7 c9_creations (by decide) (by decide) (by decide)

theorem insert_stable_perm (le : User → User → Bool) (x : User) :
    ∀ l : List User, (insert_stable le x l).Perm (x :: l) := by
  intro l
  induction l with
  | nil => simp [insert_stable]
  | cons y ys ih =>
    rw [insert_stable]
    by_cases h : le y x = true
    · rw [if_pos h]
      exact (ih.cons y).trans (List.Perm.swap x y ys)
    · rw [if_neg h]

theorem sort_stable_go_perm (le : User → User → Bool) :
    ∀ (l acc : List User),
      (l.foldl (fun acc x => insert_stable le x acc) acc).Perm (acc ++ l) := by
  intro l
  induction l with
  | nil => intro acc; simp
  | cons x l ih =>
    intro acc
    rw [List.foldl_cons]
    refine (ih (insert_stable le x acc)).trans ?_
    refine (((insert_stable_perm le x acc).append_right l).trans ?_)
    simpa using List.perm_middle.symm

theorem sort_stable_perm (le : User → User → Bool) (l : List User) :
    (sort_stable le l).Perm l := by
  simpa [sort_stable] using sort_stable_go_perm le l []

theorem collect_users_ids (db : JSONDatabase) :
    ∀ (l : List Nat) (us : List User), collect_users db l = some us →
      us.map (fun u => u.id) = l := by
  intro l
  induction l with
  | nil =>
    intro us h
    simp only [collect_users, Option.some.injEq] at h
    subst h
    rfl
  | cons a l ih =>
    intro us h
    simp only [collect_users] at h
    cases hu : user_get_by_id db a with
    | none => rw [hu] at h; simp at h
    | some u =>
      rw [hu] at h
      simp only [Option.map_eq_some'] at h
      obtain ⟨us', hus', rfl⟩ := h
      have hid : u.id = a := by
        rw [user_get_by_id] at hu
        simpa [beq_iff_eq] using List.find?_some hu
      simp [ih us' hus', hid]

theorem single_assign_student_id (sid stid g : Nat) (ss : StudentSubject) :
    (single_assign sid stid g ss).student_id = ss.student_id := by
  rw [single_assign]; split <;> rfl

theorem single_assign_subject_id (sid stid g : Nat) (ss : StudentSubject) :
    (single_assign sid stid g ss).subject_id = ss.subject_id := by
  rw [single_assign]; split <;> rfl

theorem zl_assign_student_id (sid : Nat) (zl : List (Nat × Nat)) (ss : StudentSubject) :
    (zl_assign sid zl ss).student_id = ss.student_id := by
  rw [zl_assign]
  cases zl.find? (fun p => p.1 == ss.student_id) with
  | none => rfl
  | some p => by_cases h : ss.subject_id = sid <;> simp [h]

theorem zl_assign_subject_id (sid : Nat) (zl : List (Nat × Nat)) (ss : StudentSubject) :
    (zl_assign sid zl ss).subject_id = ss.subject_id := by
  rw [zl_assign]
  cases zl.find? (fun p => p.1 == ss.student_id) with
  | none => rfl
  | some p => by_cases h : ss.subject_id = sid <;> simp [h]

theorem map_single_assign_id (sid stid g : Nat) :
    ∀ rows : List StudentSubject,
      (∀ ss ∈ rows, ¬(ss.student_id = stid ∧ ss.subject_id = sid)) →
      rows.map (single_assign sid stid g) = rows := by
  intro rows
  induction rows with
  | nil => intro _; rfl
  | cons a rows ih =>
    intro h
    rw [List.map_cons, ih (fun ss hss => h ss (List.mem_cons_of_mem _ hss))]
    rw [single_assign, if_neg (h a (List.mem_cons_self _ _))]

theorem update_row_eq_map (sid stid g : Nat) :
    ∀ rows : List StudentSubject,
      (∃ ss ∈ rows, ss.student_id = stid ∧ ss.subject_id = sid) →
      rows.countP (fun ss => ss.student_id == stid && ss.subject_id == sid) ≤ 1 →
      update_row rows sid stid g = some (rows.map (single_assign sid stid g)) := by
  intro rows
  induction rows with
  | nil => intro hpres _; simp at hpres
  | cons a rows ih =>
    intro hpres hcount
    by_cases hb : (a.student_id == stid && a.subject_id == sid) = true
    · have hm : a.student_id = stid ∧ a.subject_id = sid := by
        simpa [Bool.and_eq_true, beq_iff_eq] using hb
      have hcnt0 : rows.countP (fun ss => ss.student_id == stid && ss.subject_id == sid) = 0 := by
        have hstep := List.countP_cons_of_pos
          (fun ss => ss.student_id == stid && ss.subject_id == sid) rows hb
        rw [hstep] at hcount
        omega
      have hnone : ∀ ss ∈ rows, ¬(ss.student_id = stid ∧ ss.subject_id = sid) := by
        intro ss hss hc
        have h1 := List.countP_eq_zero.mp hcnt0 ss hss
        simp [hc.1, hc.2] at h1
      simp only [update_row, if_pos hb, List.map_cons, Option.some.injEq]
      rw [map_single_assign_id sid stid g rows hnone]
      rw [single_assign, if_pos hm]
    · have hpres' : ∃ ss ∈ rows, ss.student_id = stid ∧ ss.subject_id = sid := by
        obtain ⟨ss, hss, hs⟩ := hpres
        rcases List.mem_cons.mp hss with rfl | hmem
        · exact absurd (by simp [hs.1, hs.2]) hb
        · exact ⟨ss, hmem, hs⟩
      have hcount' : rows.countP (fun ss => ss.student_id == stid && ss.subject_id == sid) ≤ 1 := by
        have hstep := List.countP_cons_of_neg
          (fun ss => ss.student_id == stid && ss.subject_id == sid) rows hb
        rw [hstep] at hcount
        exact hcount
      simp only [update_row, if_neg hb, ih hpres' hcount', List.map_cons, Option.map_some',
        Option.some.injEq]
      rw [single_assign, if_neg (by simpa [Bool.and_eq_true, beq_iff_eq] using hb)]

theorem zl_assign_nil (sid : Nat) (ss : StudentSubject) : zl_assign sid [] ss = ss := rfl

theorem zl_assign_cons (sid stid g : Nat) (rest : List (Nat × Nat))
    (hni : ∀ q ∈ rest, q.1 ≠ stid) (ss : StudentSubject) :
    zl_assign sid rest (single_assign sid stid g ss) = zl_assign sid ((stid, g) :: rest) ss := by
  by_cases h1 : ss.student_id = stid
  · have hfr : rest.find? (fun p => p.1 == stid) = none := by
      rw [List.find?_eq_none]
      intro q hq
      simpa [beq_iff_eq] using hni q hq
    have hhead : ((stid, g) :: rest).find? (fun p => p.1 == ss.student_id) = some (stid, g) :=
      List.find?_cons_of_pos _ (by simp [h1])
    by_cases h2 : ss.subject_id = sid
    · rw [single_assign, if_pos ⟨h1, h2⟩]
      rw [zl_assign, zl_assign, hhead]
      have hfr' : rest.find?
          (fun p => p.1 == ({ ss with group_number := g } : StudentSubject).student_id) = none := by
        simpa [h1] using hfr
      rw [hfr']
      simp [h2]
    · rw [single_assign, if_neg (fun hc => h2 hc.2)]
      rw [zl_assign, zl_assign, hhead]
      have hfr' : rest.find? (fun p => p.1 == ss.student_id) = none := by
        simpa [h1] using hfr
      rw [hfr']
      simp [h2]
  · have hsa : single_assign sid stid g ss = ss := by
      rw [single_assign, if_neg (fun hc => h1 hc.1)]
    have hhead : ((stid, g) :: rest).find? (fun p => p.1 == ss.student_id) =
        rest.find? (fun p => p.1 == ss.student_id) :=
      List.find?_cons_of_neg _ (by simp [beq_iff_eq]; exact fun hc => h1 hc.symm)
    rw [hsa, zl_assign, zl_assign, hhead]

theorem assign_rows_eq_map (sid : Nat) :
    ∀ (zl : List (Nat × Nat)) (rows : List StudentSubject),
      (zl.map Prod.fst).Nodup →
      (∀ p ∈ zl, ∃ ss ∈ rows, ss.student_id = p.1 ∧ ss.subject_id = sid) →
      (∀ stid, rows.countP (fun ss => ss.student_id == stid && ss.subject_id == sid) ≤ 1) →
      assign_rows rows sid zl = some (rows.map (zl_assign sid zl)) := by
  intro zl
  induction zl with
  | nil =>
    intro rows _ _ _
    rw [assign_rows, List.foldlM_nil]
    have h : rows.map (zl_assign sid []) = rows := by
      rw [List.map_congr_left (fun ss _ => zl_assign_nil sid ss)]
      simp
    rw [h]
    rfl
  | cons hd zl ih =>
    intro rows hnd hpres hcnt
    obtain ⟨stid, g⟩ := hd
    have hup := update_row_eq_map sid stid g rows
      (by simpa using hpres (stid, g) (List.mem_cons_self _ _)) (hcnt stid)
    have hnd' : (zl.map Prod.fst).Nodup := by
      rw [List.map_cons] at hnd
      exact (List.nodup_cons.mp hnd).2
    have hni : ∀ q ∈ zl, q.1 ≠ stid := by
      rw [List.map_cons] at hnd
      intro q hq hc
      have hmem : q.1 ∈ zl.map Prod.fst := List.mem_map_of_mem Prod.fst hq
      exact (List.nodup_cons.mp hnd).1 (hc ▸ hmem)
    have hpres' : ∀ p ∈ zl, ∃ ss ∈ rows.map (single_assign sid stid g),
        ss.student_id = p.1 ∧ ss.subject_id = sid := by
      intro p hp
      obtain ⟨ss, hss, hs1, hs2⟩ := hpres p (List.mem_cons_of_mem _ hp)
      exact ⟨single_assign sid stid g ss, List.mem_map_of_mem _ hss,
        by rw [single_assign_student_id]; exact hs1,
        by rw [single_assign_subject_id]; exact hs2⟩
    have hcnt' : ∀ stid', (rows.map (single_assign sid stid g)).countP
        (fun ss => ss.student_id == stid' && ss.subject_id == sid) ≤ 1 := by
      intro stid'
      rw [List.countP_map]
      have hcongr : rows.countP
          ((fun ss => ss.student_id == stid' && ss.subject_id == sid) ∘ single_assign sid stid g) =
          rows.countP (fun ss => ss.student_id == stid' && ss.subject_id == sid) := by
        apply List.countP_congr
        intro ss _
        simp [Function.comp, single_assign_student_id, single_assign_subject_id]
      rw [hcongr]
      exact hcnt stid'
    rw [assign_rows, List.foldlM_cons]
    simp only [hup, Option.some_bind]
    have ihx := ih (rows.map (single_assign sid stid g)) hnd' hpres' hcnt'
    rw [assign_rows] at ihx
    show List.foldlM (fun rs (p : Nat × Nat) => update_row rs sid p.1 p.2)
      (rows.map (single_assign sid stid g)) zl =
      some (rows.map (zl_assign sid ((stid, g) :: zl)))
    rw [ihx, List.map_map]
    simp only [Function.comp_def]
    rw [List.map_congr_left (fun ss _ => zl_assign_cons sid stid g zl hni ss)]

theorem find?_zip_nodup :
    ∀ (ids gs : List Nat) (i : Nat) (hi : i < ids.length),
      gs.length = ids.length → ids.Nodup →
      (ids.zip gs).find? (fun p => p.1 == ids.get ⟨i, hi⟩) =
        some (ids.get ⟨i, hi⟩, gs.getD i 0) := by
  intro ids
  induction ids with
  | nil => intro gs i hi; simp at hi
  | cons a ids ih =>
    intro gs i hi hlen hnd
    cases gs with
    | nil => simp at hlen
    | cons b gs =>
      cases i with
      | zero =>
        rw [List.zip_cons_cons, List.find?_cons_of_pos _ (by simp)]
        rfl
      | succ i =>
        have hi' : i < ids.length := by simpa using hi
        have hget : (a :: ids).get ⟨i + 1, hi⟩ = ids.get ⟨i, hi'⟩ := rfl
        have hne : a ≠ ids.get ⟨i, hi'⟩ := by
          intro hc
          exact (List.nodup_cons.mp hnd).1 (hc ▸ List.get_mem ids i hi')
        rw [List.zip_cons_cons, hget,
          List.find?_cons_of_neg _ (by simpa [beq_iff_eq] using hne)]
        exact ih gs i hi' (by simpa using hlen) (List.nodup_cons.mp hnd).2

theorem group_numbers_sum (n g : Nat) (hg : 0 < g) : (group_numbers n g).sum = n := by
  rw [group_numbers_eq n g hg]
  have hmod : n % g < g := Nat.mod_lt _ hg
  rw [rr_shape, List.sum_append, List.sum_replicate, List.sum_replicate]
  simp only [smul_eq_mul]
  have h1 : (n % g) * (n / g + 1) = (n % g) * (n / g) + (n % g) := by ring
  have h2 : (g - n % g) * (n / g) = g * (n / g) - (n % g) * (n / g) := Nat.sub_mul _ _ _
  have h3 : (n % g) * (n / g) ≤ g * (n / g) := Nat.mul_le_mul_right _ hmod.le
  have h4 := Nat.mod_add_div n g
  omega

theorem group_numbers_length (n g : Nat) (hg : 0 < g) : (group_numbers n g).length = g := by
  rw [group_numbers_eq n g hg, rr_shape]
  have hmod : n % g < g := Nat.mod_lt _ hg
  simp
  omega

theorem groups_length (n g : Nat) (hg : 0 < g) : (groups n g).length = n := by
  rw [groups, List.length_flatten, List.map_map]
  have h1 : List.map (List.length ∘ fun p => List.replicate p.2 p.1)
      (group_numbers n g).enum = List.map Prod.snd (group_numbers n g).enum := by
    apply List.map_congr_left
    intro p _
    simp
  rw [h1, List.enum_map_snd]
  exact group_numbers_sum n g hg

theorem groups_mem_lt (n g : Nat) (hg : 0 < g) : ∀ x ∈ groups n g, x < g := by
  intro x hx
  rw [groups, List.mem_flatten] at hx
  obtain ⟨l, hl, hxl⟩ := hx
  rw [List.mem_map] at hl
  obtain ⟨p, hp, rfl⟩ := hl
  have hx1 := List.eq_of_mem_replicate hxl
  subst hx1
  have hlt := List.fst_lt_of_mem_enum hp
  rwa [group_numbers_length n g hg] at hlt

theorem distribute_assign_facts (db : JSONDatabase) (sid : Nat) (subject : Subject)
    (students : List User)
    (hsub : subject_get db sid = some subject)
    (hg : 1 ≤ subject.group_count)
    (hstu : subject_students db sid = some students)
    (hnodup : ((db.subjects_students.filter (fun ss => ss.subject_id == sid)).map
        (fun ss => ss.student_id)).Nodup) :
    (sorted_ids students).Nodup ∧
    (groups (sorted_ids students).length subject.group_count).length =
      (sorted_ids students).length ∧
    (∀ stid ∈ sorted_ids students, ∃ ss ∈ db.subjects_students,
        ss.student_id = stid ∧ ss.subject_id = sid) ∧
    (∀ ss ∈ db.subjects_students, ss.subject_id = sid →
        ss.student_id ∈ sorted_ids students) ∧
    assign_rows db.subjects_students sid
      ((sorted_ids students).zip (groups (sorted_ids students).length subject.group_count)) =
      some (db.subjects_students.map (zl_assign sid
        ((sorted_ids students).zip
          (groups (sorted_ids students).length subject.group_count)))) := by
  rw [subject_students] at hstu
  have hids_eq : students.map (fun u => u.id) =
      (db.subjects_students.filter (fun ss => ss.subject_id == sid)).map
        (fun ss => ss.student_id) :=
    collect_users_ids db _ students hstu
  have hperm : (sort_stable (fun a b => str_le a.full_name b.full_name) students).Perm
      students := sort_stable_perm _ students
  have hids_perm : (sorted_ids students).Perm (students.map (fun u => u.id)) := by
    rw [sorted_ids]
    exact hperm.map _
  have hnodup_ids : (sorted_ids students).Nodup := by
    rw [hids_perm.nodup_iff, hids_eq]
    exact hnodup
  have hgs_len : (groups (sorted_ids students).length subject.group_count).length =
      (sorted_ids students).length := groups_length _ _ hg
  have hmem_row : ∀ stid ∈ sorted_ids students, ∃ ss ∈ db.subjects_students,
      ss.student_id = stid ∧ ss.subject_id = sid := by
    intro stid hmem
    have h1 : stid ∈ students.map (fun u => u.id) := hids_perm.mem_iff.mp hmem
    rw [hids_eq, List.mem_map] at h1
    obtain ⟨ss, hss, he⟩ := h1
    rw [List.mem_filter] at hss
    exact ⟨ss, hss.1, he, by simpa [beq_iff_eq] using hss.2⟩
  have hcover : ∀ ss ∈ db.subjects_students, ss.subject_id = sid →
      ss.student_id ∈ sorted_ids students := by
    intro ss hss hsid
    rw [hids_perm.mem_iff, hids_eq, List.mem_map]
    exact ⟨ss, List.mem_filter.mpr ⟨hss, by simp [hsid]⟩, rfl⟩
  have hpres : ∀ p ∈ (sorted_ids students).zip
      (groups (sorted_ids students).length subject.group_count),
      ∃ ss ∈ db.subjects_students, ss.student_id = p.1 ∧ ss.subject_id = sid := by
    intro p hp
    obtain ⟨a, b⟩ := p
    exact hmem_row a (List.of_mem_zip hp).1
  have hcnt : ∀ stid, db.subjects_students.countP
      (fun ss => ss.student_id == stid && ss.subject_id == sid) ≤ 1 := by
    intro stid
    have h1 : db.subjects_students.countP
        (fun ss => ss.student_id == stid && ss.subject_id == sid) =
        ((db.subjects_students.filter (fun ss => ss.subject_id == sid)).map
          (fun ss => ss.student_id)).count stid := by
      rw [List.count, List.countP_map, List.countP_filter]
      rfl
    rw [h1]
    exact List.nodup_iff_count_le_one.mp hnodup stid
  exact ⟨hnodup_ids, hgs_len, hmem_row, hcover,
    assign_rows_eq_map sid _ db.subjects_students
      (by rw [List.map_fst_zip _ _ hgs_len.symm.le]; exact hnodup_ids) hpres hcnt⟩

/-- C2 counterexample: in `c2_db` the enrolled students sorted by full
name are Alice (1), Bob (2), Carol (3) and the subject has 2 groups;
the code assigns Bob — sorted index 1 — group 0 (contiguous blocks
[0,0,1]), not `1 mod 2 = 1` as the round-robin-by-index claim states. -/
theorem claim_C2_counterexample :
    ((subject_students c2_db 0).map (fun students => (sorted_ids students)[1]?)) =
      some (some 2) ∧
    (distribute_subject_groups c2_db 0).map (fun db' => student_group db' 2 0) =
      some (some 0) ∧
    (1 : Nat) % 2 = 1 := by
  refine ⟨by decide, by decide, rfl⟩

/-- C2 (amended): `_distribute_subject_groups` sorts the enrolled
students by full name and assigns the student at sorted index `i` the
group number `groups(n, g)[i]` — contiguous blocks whose sizes come
from round-robin counting (the first `n mod g` groups get `⌈n/g⌉`),
not the interleaved `i mod g`. -/
theorem claim_C2_amended (db : JSONDatabase) (subject_id : Nat) (subject : Subject)
    (students : List User)
    (hsub : subject_get db subject_id = some subject)
    (hg : 1 ≤ subject.group_count)
    (hstu : subject_students db subject_id = some students)
    (hnodup : ((db.subjects_students.filter (fun ss => ss.subject_id == subject_id)).map
        (fun ss => ss.student_id)).Nodup) :
    ∃ db', _distribute_subject_groups db subject_id = some db' ∧
      ∀ i, (hi : i < (sorted_ids students).length) →
        (∃ ss ∈ db'.subjects_students, ss.subject_id = subject_id ∧
            ss.student_id = (sorted_ids students).get ⟨i, hi⟩) ∧
        ∀ ss ∈ db'.subjects_students, ss.subject_id = subject_id →
          ss.student_id = (sorted_ids students).get ⟨i, hi⟩ →
          ss.group_number =
            (groups (sorted_ids students).length subject.group_count).getD i 0 := by
  have hstu0 := hstu
  obtain ⟨hnodup_ids, hgs_len, hmem_row, hcover, hassign⟩ :=
    distribute_assign_facts db subject_id subject students hsub hg hstu hnodup
  refine ⟨{ db with subjects_students := db.subjects_students.map (zl_assign subject_id
    ((sorted_ids students).zip
      (groups (sorted_ids students).length subject.group_count))) }, ?_, ?_⟩
  · rw [_distribute_subject_groups, hsub, hstu0]
    simp only [sorted_ids] at hassign
    simp only [hassign]
    rfl
  · intro i hi
    constructor
    · obtain ⟨ss, hss, he, hsid⟩ := hmem_row ((sorted_ids students).get ⟨i, hi⟩)
        (List.get_mem _ _ _)
      refine ⟨zl_assign subject_id _ ss, List.mem_map_of_mem _ hss, ?_, ?_⟩
      · rw [zl_assign_subject_id]
        exact hsid
      · rw [zl_assign_student_id]
        exact he
    · intro ss' hss' hsub' hstu'
      rw [List.mem_map] at hss'
      obtain ⟨ss, hss, rfl⟩ := hss'
      rw [zl_assign_student_id] at hstu'
      rw [zl_assign_subject_id] at hsub'
      have hfind := find?_zip_nodup (sorted_ids students)
        (groups (sorted_ids students).length subject.group_count) i hi hgs_len hnodup_ids
      rw [zl_assign, hstu', hfind]
      simp [hsub']

theorem claim_C2_amended_witness :
    ∃ db', _distribute_subject_groups c2_db 0 = some db' ∧
      ∀ i, (hi : i < (sorted_ids [c2_alice, c2_bob, c2_carol]).length) →
        (∃ ss ∈ db'.subjects_students, ss.subject_id = 0 ∧
            ss.student_id = (sorted_ids [c2_alice, c2_bob, c2_carol]).get ⟨i, hi⟩) ∧
        ∀ ss ∈ db'.subjects_students, ss.subject_id = 0 →
          ss.student_id = (sorted_ids [c2_alice, c2_bob, c2_carol]).get ⟨i, hi⟩ →
          ss.group_number =
            (groups (sorted_ids [c2_alice, c2_bob, c2_carol]).length 2).getD i 0 :=
  claim_C2_amended c2_db 0 { id := 0, class_id := 0, name := "Math", group_count := 2 }
    [c2_alice, c2_bob, c2_carol] rfl (by decide) rfl (by decide)

theorem group_number_ok_iff (db : JSONDatabase) (ss : StudentSubject) :
    group_number_ok db ss = true ↔
      ∀ subject, subject_get db ss.subject_id = some subject →
        ss.group_number < subject.group_count := by
  rw [group_number_ok]
  cases h : subject_get db ss.subject_id <;> simp [h]

theorem group_number_ok_congr (db db' : JSONDatabase) (h : db'.subjects = db.subjects)
    (ss : StudentSubject) : group_number_ok db' ss = group_number_ok db ss := by
  rw [group_number_ok, group_number_ok, subject_get, subject_get, h]

theorem find?_pred_congr {α : Type} (p q : α → Bool) :
    ∀ l : List α, (∀ a ∈ l, p a = q a) → l.find? p = l.find? q := by
  intro l
  induction l with
  | nil => intro _; rfl
  | cons a l ih =>
    intro h
    have ha := h a (List.mem_cons_self _ _)
    by_cases hp : p a = true
    · rw [List.find?_cons_of_pos _ hp, List.find?_cons_of_pos _ (ha ▸ hp)]
    · rw [List.find?_cons_of_neg _ hp, List.find?_cons_of_neg _ (ha ▸ hp),
        ih (fun b hb => h b (List.mem_cons_of_mem _ hb))]

theorem subject_get_update_ne (db : JSONDatabase) (sid x : Nat) (f : Subject → Subject)
    (hf : ∀ s, (f s).id = s.id) (hx : x ≠ sid) :
    subject_get (update_subject db sid f) x = subject_get db x := by
  show (db.subjects.map (fun s => if s.id == sid then f s else s)).find?
      (fun s => s.id == x) = db.subjects.find? (fun s => s.id == x)
  rw [List.find?_map]
  have hcong : ∀ s ∈ db.subjects,
      ((fun s : Subject => s.id == x) ∘ fun s => if s.id == sid then f s else s) s =
        (fun s : Subject => s.id == x) s := by
    intro s _
    by_cases hs : (s.id == sid) = true
    · simp only [Function.comp_apply, if_pos hs, hf]
    · simp only [Function.comp_apply, if_neg hs]
  rw [find?_pred_congr _ _ db.subjects hcong]
  cases hfind : db.subjects.find? (fun s => s.id == x) with
  | none => rfl
  | some s =>
    have hsx : s.id = x := by simpa [beq_iff_eq] using List.find?_some hfind
    have hfix : (if s.id == sid then f s else s) = s := by
      rw [if_neg]
      simp only [beq_iff_eq, hsx]
      exact hx
    simp only [Option.map_some', hfix]

theorem update_row_mem (sid stid g : Nat) :
    ∀ (rows rows2 : List StudentSubject), update_row rows sid stid g = some rows2 →
      ∀ r ∈ rows2, r ∈ rows ∨ (r.subject_id = sid ∧ r.group_number = g) := by
  intro rows
  induction rows with
  | nil => intro rows2 h; simp [update_row] at h
  | cons a rows ih =>
    intro rows2 h r hr
    by_cases hb : (a.student_id == stid && a.subject_id == sid) = true
    · simp only [update_row, if_pos hb, Option.some.injEq] at h
      subst h
      rcases List.mem_cons.mp hr with hfst | hmem
      · subst hfst
        right
        refine ⟨?_, rfl⟩
        have hb2 := (Bool.and_eq_true _ _).mp hb
        simpa [beq_iff_eq] using hb2.2
      · exact Or.inl (List.mem_cons_of_mem _ hmem)
    · simp only [update_row, if_neg hb, Option.map_eq_some'] at h
      obtain ⟨rest2, hrest, hcons⟩ := h
      subst hcons
      rcases List.mem_cons.mp hr with hfst | hmem
      · subst hfst
        exact Or.inl (List.mem_cons_self _ _)
      · rcases ih rest2 hrest r hmem with hm | hg
        · exact Or.inl (List.mem_cons_of_mem _ hm)
        · exact Or.inr hg

theorem assign_rows_mem (sid : Nat) :
    ∀ (zl : List (Nat × Nat)) (rows rows2 : List StudentSubject),
      assign_rows rows sid zl = some rows2 →
      ∀ r ∈ rows2, r ∈ rows ∨ (r.subject_id = sid ∧ r.group_number ∈ zl.map Prod.snd) := by
  intro zl
  induction zl with
  | nil =>
    intro rows rows2 h r hr
    rw [assign_rows, List.foldlM_nil] at h
    cases h
    exact Or.inl hr
  | cons hd zl ih =>
    intro rows rows2 h r hr
    obtain ⟨stid, g⟩ := hd
    rw [assign_rows, List.foldlM_cons] at h
    cases h1 : update_row rows sid stid g with
    | none => rw [h1] at h; simp at h
    | some rows1 =>
      rw [h1] at h
      have h2 : assign_rows rows1 sid zl = some rows2 := h
      rcases ih rows1 rows2 h2 r hr with hm | hg
      · rcases update_row_mem sid stid g rows rows1 h1 r hm with hm2 | hg2
        · exact Or.inl hm2
        · exact Or.inr ⟨hg2.1, by simp [hg2.2]⟩
      · exact Or.inr ⟨hg.1, by
          simp only [List.map_cons]
          exact List.mem_cons_of_mem _ hg.2⟩

theorem subject_get_update_self (db : JSONDatabase) (sid : Nat) (f : Subject → Subject)
    (hf : ∀ s, (f s).id = s.id) :
    subject_get (update_subject db sid f) sid =
      (subject_get db sid).map (fun s => if s.id == sid then f s else s) := by
  show (db.subjects.map (fun s => if s.id == sid then f s else s)).find?
      (fun s => s.id == sid) = _
  rw [List.find?_map]
  congr 1
  apply find?_pred_congr
  intro s _
  by_cases hs : (s.id == sid) = true
  · simp only [Function.comp_apply, if_pos hs, hf]
  · simp only [Function.comp_apply, if_neg hs]

theorem find?_mem_fst (zl : List (Nat × Nat)) (a : Nat) (ha : a ∈ zl.map Prod.fst) :
    ∃ p, zl.find? (fun q => q.1 == a) = some p ∧ p ∈ zl ∧ p.1 = a := by
  rw [List.mem_map] at ha
  obtain ⟨q, hq, he⟩ := ha
  have hsome : (zl.find? (fun q => q.1 == a)).isSome = true :=
    List.find?_isSome.mpr ⟨q, hq, by simp [he]⟩
  obtain ⟨p, hp⟩ := Option.isSome_iff_exists.mp hsome
  exact ⟨p, hp, List.mem_of_find?_eq_some hp,
    by simpa [beq_iff_eq] using List.find?_some hp⟩

theorem distribute_cases (db : JSONDatabase) (sid : Nat) (db2 : JSONDatabase)
    (h : distribute_subject_groups db sid = some db2) :
    ∃ subject students rows,
      subject_get db sid = some subject ∧
      subject_students db sid = some students ∧
      assign_rows db.subjects_students sid
        ((sorted_ids students).zip (groups (sorted_ids students).length subject.group_count)) =
        some rows ∧
      db2 = { db with subjects_students := rows, dirty := true } := by
  rw [distribute_subject_groups] at h
  cases h1 : _distribute_subject_groups db sid with
  | none => rw [h1] at h; simp at h
  | some d =>
    rw [h1] at h
    simp only [Option.map_some', Option.some.injEq] at h
    subst h
    rw [_distribute_subject_groups] at h1
    cases h2 : subject_get db sid with
    | none => rw [h2] at h1; simp at h1
    | some subject =>
      rw [h2] at h1
      simp only [] at h1
      cases h3 : subject_students db sid with
      | none => rw [h3] at h1; simp at h1
      | some students =>
        rw [h3] at h1
        simp only [] at h1
        cases h4 : assign_rows db.subjects_students sid
            (((sort_stable (fun a b => str_le a.full_name b.full_name) students).map
              (fun s => s.id)).zip
              (groups ((sort_stable (fun a b => str_le a.full_name b.full_name) students).map
                (fun s => s.id)).length subject.group_count)) with
        | none => rw [h4] at h1; simp at h1
        | some rows =>
          rw [h4] at h1
          simp only [Option.some.injEq] at h1
          refine ⟨subject, students, rows, rfl, rfl, h4, ?_⟩
          rw [← h1]

theorem distribute_preserves_inv (db db2 : JSONDatabase) (sid : Nat)
    (hgc : ∀ subj ∈ db.subjects, 1 ≤ subj.group_count)
    (hinv : group_number_inv db = true)
    (h : distribute_subject_groups db sid = some db2) :
    group_number_inv db2 = true := by
  obtain ⟨subject, students, rows, h2, h3, h4, hdb2⟩ := distribute_cases db sid db2 h
  subst hdb2
  rw [group_number_inv, List.all_eq_true]
  intro r hr
  have hr' : r ∈ rows := hr
  show group_number_ok db r = true
  rcases assign_rows_mem sid _ _ _ h4 r hr' with hm | ⟨hs, hg⟩
  · exact List.all_eq_true.mp hinv r hm
  · rw [group_number_ok_iff]
    intro subj2 hsubj2
    rw [hs, h2] at hsubj2
    have hsubj2' : subj2 = subject := (Option.some.inj hsubj2).symm
    rw [hsubj2']
    rw [List.mem_map] at hg
    obtain ⟨p, hp, hpe⟩ := hg
    have hp2 : p.2 ∈ groups (sorted_ids students).length subject.group_count := by
      obtain ⟨a, b⟩ := p
      exact (List.of_mem_zip hp).2
    have hpos : 0 < subject.group_count := hgc subject (List.mem_of_find?_eq_some h2)
    have hlt := groups_mem_lt _ _ hpos _ hp2
    rw [← hpe]
    exact hlt

theorem remove_distribute_inv (db db1 db2 : JSONDatabase) (sid : Nat)
    (hgc : ∀ subj ∈ db.subjects, 1 ≤ subj.group_count)
    (hinv : group_number_inv db = true)
    (hrm : subject_remove_group db sid = some (db1, true))
    (hnodup : ((db.subjects_students.filter (fun ss => ss.subject_id == sid)).map
      (fun ss => ss.student_id)).Nodup)
    (hdist : distribute_subject_groups db1 sid = some db2) :
    group_number_inv db2 = true := by
  rw [subject_remove_group] at hrm
  cases h0 : subject_get db sid with
  | none => rw [h0] at hrm; simp at hrm
  | some subj0 =>
    simp only [h0] at hrm
    by_cases h2c : 2 ≤ subj0.group_count
    · rw [if_pos h2c] at hrm
      simp only [Option.some.injEq, Prod.mk.injEq] at hrm
      obtain ⟨hdb1, -⟩ := hrm
      have hss1 : db1.subjects_students = db.subjects_students := by
        rw [← hdb1]
        rfl
      have hgetx : ∀ x, subject_get db1 x =
          subject_get (update_subject db sid
            (fun s => { s with group_count := s.group_count - 1 })) x := by
        intro x
        rw [subject_get, subject_get, ← hdb1]
      have hid0 : subj0.id = sid := by
        have h0' := h0
        rw [subject_get] at h0'
        simpa [beq_iff_eq] using List.find?_some h0'
      obtain ⟨subject1, students, rows, hsub1, hstu1, hassign0, hdb2⟩ :=
        distribute_cases db1 sid db2 hdist
      have hsubject1 : subject1 = { subj0 with group_count := subj0.group_count - 1 } := by
        have hx := hsub1
        rw [hgetx, subject_get_update_self db sid
            (fun s => { s with group_count := s.group_count - 1 }) (fun s => rfl), h0,
          Option.map_some', if_pos (by simp [hid0])] at hx
        exact (Option.some.inj hx).symm
      have hg1 : 1 ≤ subject1.group_count := by
        rw [hsubject1]
        show 1 ≤ subj0.group_count - 1
        omega
      have hnodup1 : ((db1.subjects_students.filter (fun ss => ss.subject_id == sid)).map
          (fun ss => ss.student_id)).Nodup := by
        rw [hss1]
        exact hnodup
      obtain ⟨hnodup_ids, hgs_len, hmem_row, hcover, hassign⟩ :=
        distribute_assign_facts db1 sid subject1 students hsub1 hg1 hstu1 hnodup1
      have hrows_eq : rows = db1.subjects_students.map (zl_assign sid
          ((sorted_ids students).zip
            (groups (sorted_ids students).length subject1.group_count))) := by
        rw [hassign0] at hassign
        exact Option.some.inj hassign
      subst hdb2
      rw [group_number_inv, List.all_eq_true]
      intro r hr
      have hr' : r ∈ rows := hr
      rw [hrows_eq, List.mem_map] at hr'
      obtain ⟨ss, hssmem, hre⟩ := hr'
      subst hre
      show group_number_ok db1 _ = true
      by_cases hcase : ss.subject_id = sid
      · have hmemids : ss.student_id ∈ sorted_ids students := hcover ss hssmem hcase
        obtain ⟨p, hfind, hpmem, hp1⟩ := find?_mem_fst
          ((sorted_ids students).zip
            (groups (sorted_ids students).length subject1.group_count)) ss.student_id
          (by rw [List.map_fst_zip _ _ hgs_len.symm.le]; exact hmemids)
        rw [zl_assign, hfind]
        simp only []
        rw [if_pos hcase]
        rw [group_number_ok_iff]
        intro subj hsubj
        have hsid' : ({ ss with group_number := p.2 } : StudentSubject).subject_id = sid :=
          hcase
        rw [hsid', hsub1] at hsubj
        have hsubjeq : subj = subject1 := (Option.some.inj hsubj).symm
        rw [hsubjeq]
        have hp2 : p.2 ∈ groups (sorted_ids students).length subject1.group_count := by
          obtain ⟨a, b⟩ := p
          exact (List.of_mem_zip hpmem).2
        exact groups_mem_lt _ _ (by omega) _ hp2
      · have hkeep : zl_assign sid
            ((sorted_ids students).zip
              (groups (sorted_ids students).length subject1.group_count)) ss = ss := by
          rw [zl_assign]
          cases hf : ((sorted_ids students).zip
              (groups (sorted_ids students).length subject1.group_count)).find?
              (fun q => q.1 == ss.student_id) with
          | none => rfl
          | some p =>
            simp only []
            rw [if_neg hcase]
        rw [hkeep]
        rw [group_number_ok_iff]
        intro subj hsubj
        rw [hgetx, subject_get_update_ne db sid _
            (fun s => { s with group_count := s.group_count - 1 })
            (fun s => rfl) hcase] at hsubj
        exact (group_number_ok_iff db ss).mp
          (List.all_eq_true.mp hinv ss (hss1 ▸ hssmem)) subj hsubj
    · rw [if_neg h2c] at hrm
      simp at hrm

/-- C7 counterexample: in `c7_db` (subject 0 has two groups, one row
has `group_number = 1`) the invariant holds, but `subject_remove_group`
succeeds and leaves that row with `group_number = 1 ≥ group_count = 1`,
violating the invariant. -/
theorem claim_C7_counterexample :
    group_number_inv c7_db = true ∧
    (subject_remove_group c7_db 0).map (fun r => (r.2, group_number_inv r.1)) =
      some (true, false) :=
  ⟨by decide, by decide⟩

/-- C7 (amended): `subject_add_student` and `distribute_subject_groups`
preserve the invariant that every row's `group_number` is in
`[0, group_count)`; `subject_remove_group` alone does not (see the
counterexample), but the `distribute_subject_groups` call that the
HTTP layer issues right after a successful group removal restores it. -/
theorem claim_C7_amended (db : JSONDatabase) (sid stid : Nat)
    (hgc : ∀ subj ∈ db.subjects, 1 ≤ subj.group_count)
    (hinv : group_number_inv db = true) :
    group_number_inv (subject_add_student db sid stid) = true ∧
    (∀ db2, distribute_subject_groups db sid = some db2 → group_number_inv db2 = true) ∧
    (∀ db1 db2, subject_remove_group db sid = some (db1, true) →
      ((db.subjects_students.filter (fun ss => ss.subject_id == sid)).map
        (fun ss => ss.student_id)).Nodup →
      distribute_subject_groups db1 sid = some db2 →
      group_number_inv db2 = true) := by
  refine ⟨?_, ?_, ?_⟩
  · rw [subject_add_student]
    by_cases hex : (db.subjects_students.any (fun ss =>
        ss.subject_id == sid && ss.student_id == stid)) = true
    · simp only [_subject_add_student, if_pos hex]
      exact hinv
    · simp only [_subject_add_student, if_neg hex]
      rw [group_number_inv, List.all_eq_true]
      intro r hr
      show group_number_ok db r = true
      rcases List.mem_append.mp hr with hr | hr
      · exact List.all_eq_true.mp hinv r hr
      · rw [List.mem_singleton] at hr
        subst hr
        rw [group_number_ok_iff]
        intro subj hsubj
        exact hgc subj (List.mem_of_find?_eq_some hsubj)
  · intro db2 hdist
    exact distribute_preserves_inv db db2 sid hgc hinv hdist
  · intro db1 db2 hrm hnodup hdist
    exact remove_distribute_inv db db1 db2 sid hgc hinv hrm hnodup hdist

theorem claim_C7_amended_witness :
    group_number_inv (subject_add_student c7_db 0 9) = true ∧
    (∀ db2, distribute_subject_groups c7_db 0 = some db2 → group_number_inv db2 = true) ∧
    (∀ db1 db2, subject_remove_group c7_db 0 = some (db1, true) →
      ((c7_db.subjects_students.filter (fun ss => ss.subject_id == 0)).map
        (fun ss => ss.student_id)).Nodup →
      distribute_subject_groups db1 0 = some db2 →
      group_number_inv db2 = true) :=
  claim_C7_amended c7_db 0 9 (by decide) (by decide)

theorem countP_eraseP {α : Type} (p q : α → Bool) :
    ∀ l : List α, (∀ a ∈ l, p a = true → q a = false) →
      (l.eraseP p).countP q = l.countP q
  | [], _ => rfl
  | x :: xs, h => by
    rw [List.eraseP_cons]
    cases hp : p x with
    | true =>
      simp only [cond_true]
      rw [List.countP_cons, h x (List.mem_cons_self x xs) hp]
      simp
    | false =>
      simp only [cond_false]
      rw [List.countP_cons, List.countP_cons,
        countP_eraseP p q xs (fun a ha hpa => h a (List.mem_cons_of_mem x ha) hpa)]

theorem two_mem_le_countP {α : Type} [DecidableEq α] (p : α → Bool) (l : List α) (a b : α)
    (hab : a ≠ b) (ha : a ∈ l) (hb : b ∈ l) (hpa : p a = true) (hpb : p b = true) :
    2 ≤ l.countP p := by
  have ha' : a ∈ l.filter p := List.mem_filter.mpr ⟨ha, hpa⟩
  have hb' : b ∈ l.filter p := List.mem_filter.mpr ⟨hb, hpb⟩
  have h1 : b ∈ (l.filter p).erase a := (List.mem_erase_of_ne (Ne.symm hab)).mpr hb'
  have h2 := List.length_pos_of_mem h1
  have h3 := List.length_erase_of_mem ha'
  rw [List.countP_eq_length_filter]
  omega

theorem set_in_charge_first_pairs (sid tid : Nat) (b : Bool) :
    ∀ l : List SubjectTeacher,
      (set_in_charge_first l sid tid b).map (fun st => (st.subject_id, st.teacher_id)) =
        l.map (fun st => (st.subject_id, st.teacher_id))
  | [] => rfl
  | x :: xs => by
    rw [set_in_charge_first]
    by_cases hx : (x.subject_id == sid && x.teacher_id == tid) = true
    · rw [if_pos hx]
      rfl
    · rw [if_neg hx, List.map_cons, List.map_cons, set_in_charge_first_pairs sid tid b xs]

theorem set_in_charge_first_eq_map (sid tid : Nat) (b : Bool) :
    ∀ l : List SubjectTeacher,
      (l.map (fun st => (st.subject_id, st.teacher_id))).Nodup →
      set_in_charge_first l sid tid b =
        l.map (fun st => if st.subject_id == sid && st.teacher_id == tid
          then { st with in_charge := b } else st)
  | [], _ => rfl
  | x :: xs, h => by
    rw [set_in_charge_first, List.map_cons]
    rw [List.map_cons, List.nodup_cons] at h
    obtain ⟨hnotin, htail⟩ := h
    by_cases hx : (x.subject_id == sid && x.teacher_id == tid) = true
    · rw [if_pos hx, if_pos hx]
      rw [Bool.and_eq_true, beq_iff_eq, beq_iff_eq] at hx
      obtain ⟨hxs, hxt⟩ := hx
      have hmap : xs.map (fun st => if st.subject_id == sid && st.teacher_id == tid
          then { st with in_charge := b } else st) = xs.map id := by
        apply List.map_congr_left
        intro a ha
        have hne : (a.subject_id == sid && a.teacher_id == tid) = false := by
          rw [Bool.and_eq_false_iff]
          by_contra hcon
          push_neg at hcon
          obtain ⟨h1, h2⟩ := hcon
          rw [Bool.ne_false_iff, beq_iff_eq] at h1 h2
          apply hnotin
          rw [hxs, hxt, ← h1, ← h2]
          exact List.mem_map_of_mem _ ha
        rw [hne]
        rfl
      rw [hmap, List.map_id]
    · rw [if_neg hx, if_neg hx, set_in_charge_first_eq_map sid tid b xs htail]

theorem countP_set_ne (sid tid : Nat) (b : Bool) (x : Nat) (hx : x ≠ sid) :
    ∀ l : List SubjectTeacher,
      (set_in_charge_first l sid tid b).countP (fun st => st.subject_id == x && st.in_charge) =
        l.countP (fun st => st.subject_id == x && st.in_charge)
  | [] => rfl
  | y :: ys => by
    rw [set_in_charge_first]
    by_cases hy : (y.subject_id == sid && y.teacher_id == tid) = true
    · rw [if_pos hy]
      have hys : y.subject_id = sid := by
        rw [Bool.and_eq_true, beq_iff_eq, beq_iff_eq] at hy
        exact hy.1
      have hfalse : (y.subject_id == x) = false := by
        rw [hys]
        exact beq_false_of_ne (Ne.symm hx)
      rw [List.countP_cons, List.countP_cons]
      show ys.countP _ + (if (y.subject_id == x && b) = true then 1 else 0) =
        ys.countP _ + (if (y.subject_id == x && y.in_charge) = true then 1 else 0)
      rw [hfalse]
      simp
    · rw [if_neg hy, List.countP_cons, List.countP_cons, countP_set_ne sid tid b x hx ys]

theorem countP_set_false_zero (l : List SubjectTeacher) (id otid : Nat)
    (hnd : (l.map (fun st => (st.subject_id, st.teacher_id))).Nodup)
    (st0 : SubjectTeacher) (h0m : st0 ∈ l) (h0s : st0.subject_id = id)
    (h0t : st0.teacher_id = otid) (h0c : st0.in_charge = true)
    (hone : l.countP (fun st => st.subject_id == id && st.in_charge) = 1) :
    (set_in_charge_first l id otid false).countP
      (fun st => st.subject_id == id && st.in_charge) = 0 := by
  rw [set_in_charge_first_eq_map id otid false l hnd, List.countP_map]
  rw [List.countP_eq_zero]
  intro st hst
  simp only [Function.comp_apply]
  by_cases hm : (st.subject_id == id && st.teacher_id == otid) = true
  · rw [if_pos hm]
    simp
  · rw [if_neg hm]
    intro hp
    have hne : st ≠ st0 := by
      intro he
      apply hm
      rw [he, h0s, h0t]
      simp
    have h2 := two_mem_le_countP (fun st => st.subject_id == id && st.in_charge) l st st0
      hne hst h0m hp (by simp [h0s, h0c])
    omega

theorem countP_pair_eq_one (id tid : Nat) :
    ∀ l : List SubjectTeacher,
      (l.map (fun st => (st.subject_id, st.teacher_id))).Nodup →
      l.any (fun v => v.subject_id == id && v.teacher_id == tid) = true →
      l.countP (fun st => st.subject_id == id && st.teacher_id == tid) = 1
  | [], _, hex => by simp at hex
  | x :: xs, hnd, hex => by
    rw [List.map_cons, List.nodup_cons] at hnd
    obtain ⟨hnotin, htail⟩ := hnd
    rw [List.countP_cons]
    by_cases hx : (x.subject_id == id && x.teacher_id == tid) = true
    · have hx12 := hx
      rw [Bool.and_eq_true, beq_iff_eq, beq_iff_eq] at hx12
      obtain ⟨hx1, hx2⟩ := hx12
      have hzero : xs.countP (fun st => st.subject_id == id && st.teacher_id == tid) = 0 := by
        rw [List.countP_eq_zero]
        intro a ha hpa
        rw [Bool.and_eq_true, beq_iff_eq, beq_iff_eq] at hpa
        obtain ⟨ha1, ha2⟩ := hpa
        apply hnotin
        rw [hx1, hx2, ← ha1, ← ha2]
        exact List.mem_map_of_mem _ ha
      rw [hzero, if_pos hx]
    · rw [if_neg hx]
      rw [List.any_cons] at hex
      have hx' : (x.subject_id == id && x.teacher_id == tid) = false := by
        revert hx
        cases x.subject_id == id && x.teacher_id == tid <;> simp
      rw [hx', Bool.false_or] at hex
      rw [countP_pair_eq_one id tid xs htail hex]

theorem countP_set_true_one (l : List SubjectTeacher) (id tid : Nat)
    (hnd : (l.map (fun st => (st.subject_id, st.teacher_id))).Nodup)
    (hzero : l.countP (fun st => st.subject_id == id && st.in_charge) = 0)
    (hex : l.any (fun v => v.subject_id == id && v.teacher_id == tid) = true) :
    (set_in_charge_first l id tid true).countP
      (fun st => st.subject_id == id && st.in_charge) = 1 := by
  rw [set_in_charge_first_eq_map id tid true l hnd, List.countP_map]
  have hcongr : ∀ a ∈ l,
      ((fun st => st.subject_id == id && st.in_charge) ∘
        (fun st => if st.subject_id == id && st.teacher_id == tid
          then { st with in_charge := true } else st)) a = true ↔
      (a.subject_id == id && a.teacher_id == tid) = true := by
    intro a ha
    simp only [Function.comp_apply]
    by_cases hm : (a.subject_id == id && a.teacher_id == tid) = true
    · rw [if_pos hm, hm]
      have h1 : (a.subject_id == id) = true := by
        rw [Bool.and_eq_true] at hm
        exact hm.1
      simp [h1]
    · rw [if_neg hm]
      have h1 : (a.subject_id == id && a.in_charge) = false := by
        have := (List.countP_eq_zero.mp hzero) a ha
        revert this
        cases a.subject_id == id && a.in_charge <;> simp
      have h2 : (a.subject_id == id && a.teacher_id == tid) = false := by
        revert hm
        cases a.subject_id == id && a.teacher_id == tid <;> simp
      rw [h1, h2]
  rw [List.countP_congr hcongr]
  exact countP_pair_eq_one id tid l hnd hex

theorem in_charge_inv_iff (db : JSONDatabase) :
    in_charge_inv db = true ↔ ∀ subj ∈ db.subjects, in_charge_count db subj.id = 1 := by
  rw [in_charge_inv, List.all_eq_true]
  constructor
  · intro h subj hs
    simpa using h subj hs
  · intro h subj hs
    simpa using h subj hs

theorem in_charge_inv_congr (db2 db : JSONDatabase) (hs : db2.subjects = db.subjects)
    (ht : db2.subjects_teachers = db.subjects_teachers) :
    in_charge_inv db2 = in_charge_inv db := by
  have hc : ∀ x, in_charge_count db2 x = in_charge_count db x := by
    intro x
    rw [in_charge_count, in_charge_count, ht]
  rw [in_charge_inv, in_charge_inv, hs]
  simp only [hc]

theorem set_teaches_subjects (db : JSONDatabase) (sid tid : Nat) (ic : Option Bool) :
    (_set_teaches db sid tid ic).subjects = db.subjects := by
  rw [_set_teaches.eq_def]
  by_cases h : (db.subjects_teachers.any
      (fun v => v.subject_id == sid && v.teacher_id == tid)) = true
  · rw [if_pos h]
    cases ic <;> rfl
  · rw [if_neg h]

theorem set_teaches_teachers_pos (db : JSONDatabase) (sid tid : Nat) (b : Bool)
    (h : db.subjects_teachers.any (fun v => v.subject_id == sid && v.teacher_id == tid) = true) :
    (_set_teaches db sid tid (some b)).subjects_teachers =
      set_in_charge_first db.subjects_teachers sid tid b := by
  rw [_set_teaches.eq_def, if_pos h]

theorem set_teaches_teachers_neg (db : JSONDatabase) (sid tid : Nat) (b : Bool)
    (h : ¬ db.subjects_teachers.any
      (fun v => v.subject_id == sid && v.teacher_id == tid) = true) :
    (_set_teaches db sid tid (some b)).subjects_teachers =
      db.subjects_teachers ++
        [{ id := db.next_subject_teacher_id, teacher_id := tid,
           subject_id := sid, in_charge := b }] := by
  rw [_set_teaches.eq_def, if_neg h]
  rfl

theorem set_set_in_charge_inv (db2 : JSONDatabase) (sid tid otid : Nat) (st0 : SubjectTeacher)
    (hinv2 : in_charge_inv db2 = true)
    (hnd : (db2.subjects_teachers.map (fun st => (st.subject_id, st.teacher_id))).Nodup)
    (h0m : st0 ∈ db2.subjects_teachers) (h0s : st0.subject_id = sid)
    (h0t : st0.teacher_id = otid) (h0c : st0.in_charge = true)
    (hone : db2.subjects_teachers.countP
      (fun st => st.subject_id == sid && st.in_charge) = 1) :
    in_charge_inv { _set_teaches (_set_teaches db2 sid otid (some false)) sid tid (some true)
        with dirty := true } = true := by
  have hany1 : db2.subjects_teachers.any
      (fun v => v.subject_id == sid && v.teacher_id == otid) = true :=
    List.any_eq_true.mpr ⟨st0, h0m, by rw [h0s, h0t]; simp⟩
  have hl3 : (_set_teaches db2 sid otid (some false)).subjects_teachers =
      set_in_charge_first db2.subjects_teachers sid otid false :=
    set_teaches_teachers_pos db2 sid otid false hany1
  have hpairs3 : ((_set_teaches db2 sid otid (some false)).subjects_teachers.map
      (fun st => (st.subject_id, st.teacher_id))).Nodup := by
    rw [hl3, set_in_charge_first_pairs]
    exact hnd
  have hzero3 : (_set_teaches db2 sid otid (some false)).subjects_teachers.countP
      (fun st => st.subject_id == sid && st.in_charge) = 0 := by
    rw [hl3]
    exact countP_set_false_zero db2.subjects_teachers sid otid hnd st0 h0m h0s h0t h0c hone
  have hne3 : ∀ x, x ≠ sid → (_set_teaches db2 sid otid (some false)).subjects_teachers.countP
      (fun st => st.subject_id == x && st.in_charge) =
      db2.subjects_teachers.countP (fun st => st.subject_id == x && st.in_charge) := by
    intro x hx
    rw [hl3]
    exact countP_set_ne sid otid false x hx db2.subjects_teachers
  rw [in_charge_inv_iff]
  intro subj hsubj
  have hsubj2 : subj ∈ db2.subjects := by
    have h1 : subj ∈ (_set_teaches (_set_teaches db2 sid otid (some false)) sid tid
        (some true)).subjects := hsubj
    rw [set_teaches_subjects, set_teaches_subjects] at h1
    exact h1
  have hcnt2 := (in_charge_inv_iff db2).mp hinv2 subj hsubj2
  rw [in_charge_count] at hcnt2
  show (_set_teaches (_set_teaches db2 sid otid (some false)) sid tid
      (some true)).subjects_teachers.countP
      (fun st => st.subject_id == subj.id && st.in_charge) = 1
  by_cases hxid : subj.id = sid
  · rw [hxid]
    by_cases hex2 : ((_set_teaches db2 sid otid (some false)).subjects_teachers.any
        (fun v => v.subject_id == sid && v.teacher_id == tid)) = true
    · rw [set_teaches_teachers_pos _ sid tid true hex2]
      exact countP_set_true_one _ sid tid hpairs3 hzero3 hex2
    · rw [set_teaches_teachers_neg _ sid tid true hex2]
      rw [List.countP_append, hzero3]
      simp
  · by_cases hex2 : ((_set_teaches db2 sid otid (some false)).subjects_teachers.any
        (fun v => v.subject_id == sid && v.teacher_id == tid)) = true
    · rw [set_teaches_teachers_pos _ sid tid true hex2]
      rw [countP_set_ne sid tid true subj.id hxid _, hne3 subj.id hxid]
      exact hcnt2
    · rw [set_teaches_teachers_neg _ sid tid true hex2]
      rw [List.countP_append, hne3 subj.id hxid]
      have hx2 : sid ≠ subj.id := fun h => hxid h.symm
      rw [hcnt2]
      simp [hx2]

theorem subject_update_fields_teachers (db : JSONDatabase) (sid : Nat) (u : SubjectUpdate) :
    (subject_update_fields db sid u).subjects_teachers = db.subjects_teachers := by
  rw [subject_update_fields]
  cases hn : u.name <;> cases hc : u.class_id <;> rfl

theorem subject_update_fields_ids (db : JSONDatabase) (sid : Nat) (u : SubjectUpdate) :
    (subject_update_fields db sid u).subjects.map (fun s => s.id) =
      db.subjects.map (fun s => s.id) := by
  have hupd : ∀ (d : JSONDatabase) (f : Subject → Subject), (∀ s, (f s).id = s.id) →
      (update_subject d sid f).subjects.map (fun s => s.id) =
        d.subjects.map (fun s => s.id) := by
    intro d f hf
    rw [update_subject]
    show (d.subjects.map (fun s => if s.id == sid then f s else s)).map (fun s => s.id) = _
    rw [List.map_map]
    apply List.map_congr_left
    intro s hs
    show (if s.id == sid then f s else s).id = s.id
    by_cases h : (s.id == sid) = true
    · rw [if_pos h, hf]
    · rw [if_neg h]
  rw [subject_update_fields]
  cases hn : u.name with
  | none =>
    cases hc : u.class_id with
    | none => rfl
    | some cid => exact hupd db (fun s => { s with class_id := cid }) (fun s => rfl)
  | some n =>
    cases hc : u.class_id with
    | none =>
      exact hupd db (fun s => { s with name := n }) (fun s => rfl)
    | some cid =>
      show (update_subject (update_subject db sid (fun s => { s with class_id := cid })) sid
          (fun s => { s with name := n })).subjects.map (fun s => s.id) =
        db.subjects.map (fun s => s.id)
      rw [hupd (update_subject db sid (fun s => { s with class_id := cid }))
          (fun s => { s with name := n }) (fun s => rfl),
        hupd db (fun s => { s with class_id := cid }) (fun s => rfl)]

/-- C3 counterexample: in `sample_db` every subject has exactly one
`in_charge` row, yet `teacher_unset_teaches` of the in-charge teacher
(teacher 1) of subject 0 removes that row, leaving subject 0 with no
`in_charge` teacher — the engine does not preserve the invariant. -/
theorem claim_C3_counterexample :
    in_charge_inv sample_db = true ∧
    in_charge_inv (teacher_unset_teaches sample_db 1 0) = false :=
  ⟨by decide, by decide⟩

/-- C3 (amended): the one-`in_charge`-row-per-subject invariant is
preserved by `subject_add` (when the new subject id is fresh), by
`teacher_set_teaches` (the inserted row has `in_charge = false`), by
`teacher_unset_teaches` only when the removed teacher is not in charge
(the HTTP layer checks `teacher_in_charge` and rejects such requests
with `InvalidID`), and is re-established by `subject_update` with a new
`teacher_in_charge_id` provided the `(subject, teacher)` pairs of the
join rows are distinct. -/
theorem claim_C3_amended (db : JSONDatabase) (hinv : in_charge_inv db = true) :
    (∀ ns, (∀ st ∈ db.subjects_teachers, st.subject_id ≠ db.next_subject_id) →
      (∀ s ∈ db.subjects, s.id ≠ db.next_subject_id) →
      in_charge_inv (subject_add db ns) = true) ∧
    (∀ tid sid, in_charge_inv (teacher_set_teaches db tid sid) = true) ∧
    (∀ tid sid, teacher_in_charge db tid sid = false →
      in_charge_inv (teacher_unset_teaches db tid sid) = true) ∧
    (∀ sid u r, (db.subjects_teachers.map (fun st => (st.subject_id, st.teacher_id))).Nodup →
      subject_update db sid u = some r → in_charge_inv r.1 = true) := by
  refine ⟨?_, ?_, ?_, ?_⟩
  · intro ns hfst hfs
    have hkey : in_charge_inv { db with
        subjects := db.subjects ++
          [{ id := db.next_subject_id, class_id := ns.class_id,
             name := ns.name, group_count := 1 }],
        subjects_teachers := db.subjects_teachers ++
          [{ id := db.next_subject_teacher_id, teacher_id := ns.teacher_in_charge_id,
             subject_id := db.next_subject_id, in_charge := true }],
        next_subject_id := db.next_subject_id + 1,
        next_subject_teacher_id := db.next_subject_teacher_id + 1,
        dirty := true } = true := by
      rw [in_charge_inv_iff]
      intro subj hsubj
      have hsubj2 : subj ∈ db.subjects ++
          [({ id := db.next_subject_id, class_id := ns.class_id,
              name := ns.name, group_count := 1 } : Subject)] := hsubj
      rcases List.mem_append.mp hsubj2 with hm | hm
      · have hne : subj.id ≠ db.next_subject_id := hfs subj hm
        have hc := (in_charge_inv_iff db).mp hinv subj hm
        rw [in_charge_count] at hc
        show (db.subjects_teachers ++
            [({ id := db.next_subject_teacher_id, teacher_id := ns.teacher_in_charge_id,
                subject_id := db.next_subject_id, in_charge := true } : SubjectTeacher)]).countP
            (fun st => st.subject_id == subj.id && st.in_charge) = 1
        rw [List.countP_append, hc]
        simp [Ne.symm hne]
      · rw [List.mem_singleton] at hm
        subst hm
        show (db.subjects_teachers ++
            [({ id := db.next_subject_teacher_id, teacher_id := ns.teacher_in_charge_id,
                subject_id := db.next_subject_id, in_charge := true } : SubjectTeacher)]).countP
            (fun st => st.subject_id == db.next_subject_id && st.in_charge) = 1
        rw [List.countP_append]
        have h1 : db.subjects_teachers.countP
            (fun st => st.subject_id == db.next_subject_id && st.in_charge) = 0 := by
          rw [List.countP_eq_zero]
          intro a ha hpa
          rw [Bool.and_eq_true, beq_iff_eq] at hpa
          exact hfst a ha hpa.1
        rw [h1]
        simp
    exact hkey
  · intro tid sid
    rw [teacher_set_teaches]
    rw [in_charge_inv_congr ({ _set_teaches db sid tid none with dirty := true })
      (_set_teaches db sid tid none) rfl rfl]
    rw [_set_teaches.eq_def]
    by_cases h : (db.subjects_teachers.any
        (fun v => v.subject_id == sid && v.teacher_id == tid)) = true
    · rw [if_pos h]
      exact hinv
    · rw [if_neg h]
      rw [in_charge_inv_iff]
      intro subj hsubj
      have hm : subj ∈ db.subjects := hsubj
      have hc := (in_charge_inv_iff db).mp hinv subj hm
      rw [in_charge_count] at hc
      show (db.subjects_teachers ++
          [({ id := db.next_subject_teacher_id, teacher_id := tid,
              subject_id := sid, in_charge := false } : SubjectTeacher)]).countP
          (fun st => st.subject_id == subj.id && st.in_charge) = 1
      rw [List.countP_append, hc]
      simp
  · intro tid sid hni
    rw [teacher_unset_teaches]
    rw [in_charge_inv_congr ({ (_unset_teaches db sid tid).1 with dirty := true })
      ((_unset_teaches db sid tid).1) rfl rfl]
    rw [_unset_teaches]
    cases hf : db.subjects_teachers.find?
        (fun v => v.subject_id == sid && v.teacher_id == tid) with
    | none =>
      exact hinv
    | some st1 =>
      rw [in_charge_inv_iff]
      intro subj hsubj
      have hm : subj ∈ db.subjects := hsubj
      have hc := (in_charge_inv_iff db).mp hinv subj hm
      rw [in_charge_count] at hc
      show (db.subjects_teachers.eraseP
          (fun v => v.subject_id == sid && v.teacher_id == tid)).countP
          (fun st => st.subject_id == subj.id && st.in_charge) = 1
      rw [countP_eraseP]
      · exact hc
      · intro a ha hpa
        rw [Bool.and_eq_true, beq_iff_eq, beq_iff_eq] at hpa
        obtain ⟨ha1, ha2⟩ := hpa
        have hic : a.in_charge = false := by
          rw [teacher_in_charge, List.any_eq_false] at hni
          have h3 := hni a ha
          revert h3
          rw [ha1, ha2]
          simp
        rw [hic, Bool.and_false]
  · intro sid u r hnd hupd
    rw [subject_update] at hupd
    by_cases hc : ((subject_get db sid).isNone = true)
    · rw [if_pos hc] at hupd
      have h := Option.some.inj hupd
      rw [← h]
      exact hinv
    · rw [if_neg hc] at hupd
      have hfinv : in_charge_inv (subject_update_fields db sid u) = true := by
        rw [in_charge_inv_iff]
        intro subj hsubj
        have hidm : subj.id ∈ (subject_update_fields db sid u).subjects.map (fun s => s.id) :=
          List.mem_map_of_mem _ hsubj
        rw [subject_update_fields_ids, List.mem_map] at hidm
        obtain ⟨s, hsm, hsid⟩ := hidm
        have hcnt := (in_charge_inv_iff db).mp hinv s hsm
        rw [in_charge_count] at hcnt
        rw [in_charge_count, subject_update_fields_teachers, ← hsid]
        exact hcnt
      cases htid : u.teacher_in_charge_id with
      | none =>
        simp only [htid] at hupd
        have h := Option.some.inj hupd
        rw [← h]
        by_cases hb : (u.class_id.isSome || u.name.isSome) = true
        · rw [if_pos hb]
          exact hfinv
        · rw [if_neg hb]
          exact hfinv
      | some tid =>
        simp only [htid] at hupd
        cases hfind : (((subject_update_fields db sid u).subjects_teachers.filter
            (fun st => st.subject_id == sid)).find?
            (fun st => teacher_in_charge (subject_update_fields db sid u)
              st.teacher_id sid)) with
        | none =>
          simp only [hfind, Option.map_none'] at hupd
          simp at hupd
        | some st1 =>
          simp only [hfind, Option.map_some'] at hupd
          have h := Option.some.inj hupd
          rw [← h]
          show in_charge_inv { _set_teaches
            (_set_teaches (subject_update_fields db sid u) sid
              st1.teacher_id (some false)) sid tid (some true) with dirty := true } = true
          have hndf : ((subject_update_fields db sid u).subjects_teachers.map
              (fun st => (st.subject_id, st.teacher_id))).Nodup := by
            rw [subject_update_fields_teachers]
            exact hnd
          have hpred := List.find?_some hfind
          simp only [teacher_in_charge] at hpred
          rw [List.any_eq_true] at hpred
          obtain ⟨st0, h0m, hb⟩ := hpred
          simp only [Bool.and_eq_true, beq_iff_eq] at hb
          obtain ⟨⟨h0t, h0s⟩, h0c⟩ := hb
          have hg : ∃ s0, subject_get db sid = some s0 := by
            cases hgg : subject_get db sid with
            | none => rw [hgg] at hc; simp at hc
            | some s0 => exact ⟨s0, rfl⟩
          obtain ⟨s0, hs0g⟩ := hg
          have hs0m : s0 ∈ db.subjects := List.mem_of_find?_eq_some hs0g
          have hs0id : s0.id = sid := by
            have h4 := List.find?_some hs0g
            simpa [beq_iff_eq] using h4
          have hs1x : sid ∈ (subject_update_fields db sid u).subjects.map (fun s => s.id) := by
            rw [subject_update_fields_ids, List.mem_map]
            exact ⟨s0, hs0m, hs0id⟩
          obtain ⟨s1, hs1m, hs1id⟩ := List.mem_map.mp hs1x
          have hone := (in_charge_inv_iff _).mp hfinv s1 hs1m
          rw [in_charge_count, hs1id] at hone
          exact set_set_in_charge_inv (subject_update_fields db sid u) sid tid
            st1.teacher_id st0 hfinv hndf h0m h0s h0t h0c hone

/-- C3 amended witness: the preservation facts at `sample_db`, with a
fresh subject, teacher 2 (who teaches nothing) set and unset, and an
update making teacher 3 the one in charge of subject 0. -/
theorem claim_C3_amended_witness :
    in_charge_inv (subject_add sample_db c3_ns) = true ∧
    in_charge_inv (teacher_set_teaches sample_db 2 0) = true ∧
    in_charge_inv (teacher_unset_teaches sample_db 2 0) = true ∧
    (∀ r, subject_update sample_db 0 c3_update = some r → in_charge_inv r.1 = true) :=
  ⟨(claim_C3_amended sample_db (by decide)).1 c3_ns (by decide) (by decide),
   (claim_C3_amended sample_db (by decide)).2.1 2 0,
   (claim_C3_amended sample_db (by decide)).2.2.1 2 0 (by decide),
   fun r hr => (claim_C3_amended sample_db (by decide)).2.2.2 0 c3_update r (by decide) hr⟩

end Db
